import Mathlib

/-!
Verification of the logpile core (timestamp extraction and time bucketing)
against its natural-language specification.  The Rust sources in
src/bucket.rs, src/timestamp.rs and src/processor.rs are shallowly embedded
below: strings are lists of characters, Rust f64 values are modelled by exact
rationals plus the special values (infinities, NaN; decimal literals are taken
at their exact rational value), i64 arithmetic is modelled on Int with explicit
truncation and saturation where the source casts, and panics are modelled by
an Except error value.
-/

set_option maxHeartbeats 2000000

namespace Logpile

/-- Strings of the embedding: a Rust string is a list of characters. -/
abbrev Str := List Char

/-- Shorthand turning a Lean string literal into the embedded string type. -/
def strL (s : String) : Str := s.data

/-- ASCII decimal digit test (regex class backslash-d on the inputs considered). -/
def isDigitCh (c : Char) : Bool := '0' ≤ c && c ≤ '9'

/-- Whitespace test (regex class backslash-s and Rust trim, ASCII fragment). -/
def isSpaceCh (c : Char) : Bool := c = ' ' || c = '\t' || c = '\n' || c = '\r'

/-- ASCII uppercase letter test. -/
def isUpperCh (c : Char) : Bool := 'A' ≤ c && c ≤ 'Z'

/-- ASCII lowercase letter test. -/
def isLowerCh (c : Char) : Bool := 'a' ≤ c && c ≤ 'z'

/-- Numeric value of a digit character. -/
def digitVal (c : Char) : Nat := c.toNat - 48

/-- Decimal digit characters, used to model Rust integer formatting. -/
def digitChar : Nat → Char
  | 0 => '0'
  | 1 => '1'
  | 2 => '2'
  | 3 => '3'
  | 4 => '4'
  | 5 => '5'
  | 6 => '6'
  | 7 => '7'
  | 8 => '8'
  | 9 => '9'
  | _ => '*'

/-- ASCII lowercase conversion of one character (Rust to_lowercase on the
ASCII inputs the claims exercise). -/
def toLowerCh (c : Char) : Char :=
  if isUpperCh c then Char.ofNat (c.toNat + 32) else c

/-- Lowercase an embedded string. -/
def lowerStr (s : Str) : Str := s.map toLowerCh

/-- Drop leading whitespace. -/
def trimLeft : Str → Str
  | [] => []
  | c :: r => if isSpaceCh c then trimLeft r else c :: r

/-- Rust str trim: drop whitespace at both ends. -/
def trimBoth (s : Str) : Str := ((trimLeft ((trimLeft s).reverse)).reverse)

/-- Does the first string start with the second. -/
def startsWithL : Str → Str → Bool
  | _, [] => true
  | [], _ :: _ => false
  | c :: r, p :: ps => c = p && startsWithL r ps

/-- Substring containment (Rust str contains with a literal pattern). -/
def containsSub : Str → Str → Bool
  | [], pat => pat.isEmpty
  | c :: r, pat => startsWithL (c :: r) pat || containsSub r pat

/-- Greedy run of decimal digits. -/
def takeDigitsRun : Str → (List Char × Str)
  | [] => ([], [])
  | c :: r =>
    if isDigitCh c then
      let (ds, rest) := takeDigitsRun r
      (c :: ds, rest)
    else ([], c :: r)

/-- Value of a digit list, most significant first. -/
def digitsVal (ds : List Char) : Nat := ds.foldl (fun a c => a * 10 + digitVal c) 0

/-- Optional leading sign; returns (isNegative, rest). -/
def parseSign : Str → (Bool × Str)
  | '+' :: r => (false, r)
  | '-' :: r => (true, r)
  | s => (false, s)

/-- Rust i64 FromStr: optional sign, one or more digits, nothing else, with the
i64 range check (out-of-range input is a parse error). -/
def parseI64 (s : Str) : Option Int :=
  let (neg, r) := parseSign s
  if r = [] || !(r.all isDigitCh) then none
  else
    let v : Int := (digitsVal r : Int)
    let v := if neg then -v else v
    if -(2 ^ 63) ≤ v && v ≤ 2 ^ 63 - 1 then some v else none

/-- Model of Rust f64 values: exact rationals for finite values (decimal
literals are taken at their exact value; IEEE rounding is immaterial to every
claim settled here), plus infinities and NaN. -/
inductive F64 where
  | finite (q : ℚ)
  | inf
  | negInf
  | nan
deriving DecidableEq, Repr

/-- Multiplication of an f64 by the positive constant 1 000 000.0, as in
bucket_seconds * 1_000_000.0 (written through mkRat, which is the exact same
rational as q * 1000000, so the kernel can evaluate it). -/
def F64.mul1e6 : F64 → F64
  | .finite q => .finite (mkRat (q.num * 1000000) q.den)
  | .inf => .inf
  | .negInf => .negInf
  | .nan => .nan

/-- Truncation of a rational toward zero. -/
def ratTrunc (q : ℚ) : Int := Int.tdiv q.num (q.den : Int)

/-- Rust saturating f64-to-i64 cast: truncate toward zero, clamp to the i64
range, NaN casts to 0. -/
def F64.toI64 : F64 → Int
  | .finite q =>
    let t := ratTrunc q
    if t < -(2 ^ 63) then -(2 ^ 63) else if 2 ^ 63 - 1 < t then 2 ^ 63 - 1 else t
  | .inf => 2 ^ 63 - 1
  | .negInf => -(2 ^ 63)
  | .nan => 0

/-- Exact rational value of a decimal literal with the given integer digits,
fraction digits and signed decimal exponent (division-free formulation so the
kernel can evaluate it). -/
def decimalValue (neg : Bool) (ip fracDigits : List Char) (ex : ℤ) : ℚ :=
  let mant10 : ℕ := digitsVal ip * 10 ^ fracDigits.length + digitsVal fracDigits
  let shift : ℤ := ex - fracDigits.length
  let mag : ℚ :=
    if 0 ≤ shift then ((mant10 * 10 ^ shift.toNat : ℕ) : ℚ)
    else mkRat (mant10 : ℤ) (10 ^ (-shift).toNat)
  if neg then -mag else mag

/-- Decimal part of the Rust f64 grammar: digits, optional fraction, optional
exponent, nothing left over.  Digit-free mantissas are rejected. -/
def parseF64Decimal (neg : Bool) (r : Str) : Option F64 :=
  let (ip, r1) := takeDigitsRun r
  let (fp, r2) :=
    match r1 with
    | '.' :: rr =>
      let (f, rr2) := takeDigitsRun rr
      (some f, rr2)
    | _ => (none, r1)
  if ip = [] && (fp = none || fp = some []) then none
  else
    let fracDigits := fp.getD []
    match r2 with
    | [] => some (.finite (decimalValue neg ip fracDigits 0))
    | e :: rr =>
      if e = 'e' || e = 'E' then
        let (eneg, rr1) := parseSign rr
        let (ed, rr2) := takeDigitsRun rr1
        if ed = [] || rr2 ≠ [] then none
        else
          let ex : ℤ := if eneg then -(digitsVal ed : ℤ) else (digitsVal ed : ℤ)
          some (.finite (decimalValue neg ip fracDigits ex))
      else none

/-- Rust f64 FromStr: optional sign, then inf, infinity, nan (case
insensitive) or a decimal number. -/
def parseF64 (s : Str) : Option F64 :=
  let (neg, r) := parseSign s
  if lowerStr r = strL "inf" || lowerStr r = strL "infinity" then
    some (if neg then .negInf else .inf)
  else if lowerStr r = strL "nan" then some .nan
  else parseF64Decimal neg r

/-- BucketSize from src/bucket.rs: a fixed f64 width in seconds or Auto. -/
inductive BucketSize where
  | Seconds (s : F64)
  | Auto
deriving DecidableEq, Repr

/-- BucketSize::from_string: the lowercased string auto yields Auto, any
string accepted by the f64 parser yields Seconds, everything else is an
error (anyhow error modelled as Except.error). -/
def BucketSize.from_string (s : Str) : Except Unit BucketSize :=
  if lowerStr s = strL "auto" then .ok .Auto
  else
    match parseF64 s with
    | some f => .ok (.Seconds f)
    | none => .error ()

/-- TimeBucket state from src/bucket.rs: the configured width, the BTreeMap
of bucket counts (modelled as a key-sorted association list), and the
first/last timestamps in microseconds since the Unix epoch. -/
structure TimeBucket where
  bucket_size : BucketSize
  buckets : List (Int × Nat)
  first_timestamp : Option Int
  last_timestamp : Option Int
deriving DecidableEq, Repr

/-- TimeBucket::new: parse the optional width string, defaulting to 60
seconds. -/
def TimeBucket.new (bucket_size : Option Str) : Except Unit TimeBucket := do
  let size ←
    match bucket_size with
    | some s => BucketSize.from_string s
    | none => pure (BucketSize.Seconds (.finite 60))
  pure ⟨size, [], none, none⟩

/-- TimeBucket::calculate_auto_bucket_size: divide the observed span by the
target of 15 buckets and round up through the fixed interval ladder; spans of
more than 15 days floor to a whole multiple of days. -/
def TimeBucket.calculate_auto_bucket_size (total_seconds : ℚ) : ℚ :=
  let ideal := total_seconds / 15
  if ideal < 1 / 10 then 1 / 10
  else if ideal < 1 then 1
  else if ideal < 60 then 60
  else if ideal < 300 then 300
  else if ideal < 900 then 900
  else if ideal < 3600 then 3600
  else if ideal < 21600 then 21600
  else if ideal < 86400 then 86400
  else ((⌊ideal / 86400⌋ : ℤ) : ℚ) * 86400

/-- TimeBucket::get_bucket_size: a fixed width is returned unchanged; Auto is
resolved from the observed span (whole seconds of last minus first, as
chrono num_seconds truncates) or defaults to 60 before any data. -/
def TimeBucket.get_bucket_size (b : TimeBucket) : F64 :=
  match b.bucket_size with
  | .Seconds s => s
  | .Auto =>
    match b.first_timestamp, b.last_timestamp with
    | some f, some l =>
      .finite (TimeBucket.calculate_auto_bucket_size ((Int.tdiv (l - f) 1000000 : ℤ) : ℚ))
    | _, _ => .finite 60

/-- BTreeMap entry(key).or_insert(0) += 1 on a key-sorted association list. -/
def insertIncr (k : Int) : List (Int × Nat) → List (Int × Nat)
  | [] => [(k, 1)]
  | (k2, c) :: rest =>
    if k < k2 then (k, 1) :: (k2, c) :: rest
    else if k = k2 then (k2, c + 1) :: rest
    else (k2, c) :: insertIncr k rest

/-- TimeBucket::add: update first/last, compute the active width in
microseconds with a truncating f64-to-i64 cast, and increment the bucket at
key (t / width) * width, Rust division truncating toward zero.  A zero
microsecond width makes the Rust division panic, modelled as Except.error. -/
def TimeBucket.add (b : TimeBucket) (t : Int) : Except Unit TimeBucket :=
  let first :=
    match b.first_timestamp with
    | none => some t
    | some f => if t < f then some t else some f
  let last :=
    match b.last_timestamp with
    | none => some t
    | some l => if l < t then some t else some l
  let b2 : TimeBucket := { b with first_timestamp := first, last_timestamp := last }
  let bucket_micros := (b2.get_bucket_size).mul1e6.toI64
  if bucket_micros = 0 then .error ()
  else
    let bucket_key := Int.tdiv t bucket_micros * bucket_micros
    .ok { b2 with buckets := insertIncr bucket_key b2.buckets }

/-- TimeBucket::total_matches: sum of all bucket counts. -/
def TimeBucket.total_matches (b : TimeBucket) : Nat :=
  (b.buckets.map Prod.snd).sum

/-- Modelled from the spec (section 4.2 as quoted by the claim): the smallest
value of the ladder 0.1, 1, 60, 300, 900, 3600, 21600, 86400, N times 86400
that is greater than or equal to the ideal width.  Used only to compare the
claimed snapping rule with the implemented one. -/
def spec_ladder_snap_up (ideal : ℚ) : ℚ :=
  if ideal ≤ 1 / 10 then 1 / 10
  else if ideal ≤ 1 then 1
  else if ideal ≤ 60 then 60
  else if ideal ≤ 300 then 300
  else if ideal ≤ 900 then 900
  else if ideal ≤ 3600 then 3600
  else if ideal ≤ 21600 then 21600
  else if ideal ≤ 86400 then 86400
  else ((⌈ideal / 86400⌉ : ℤ) : ℚ) * 86400

/-- The base ladder of nice widths appearing in the auto-sizing code. -/
def autoLadder : List ℚ := [1 / 10, 1, 60, 300, 900, 3600, 21600, 86400]

end Logpile

namespace Logpile

/-- Decidable equality for Except results, used to evaluate the embedding on
concrete inputs. -/
instance {ε α : Type} [DecidableEq ε] [DecidableEq α] : DecidableEq (Except ε α) := by
  intro a b
  cases a <;> cases b <;> first
    | (rename_i x y; exact decidable_of_iff (x = y) (by constructor <;> (intro h; simp_all)))
    | (apply isFalse; intro h; exact Except.noConfusion h)

/-- Helper: one insertIncr call raises the total count by exactly one. -/
theorem insertIncr_total (k : Int) (l : List (Int × Nat)) :
    ((insertIncr k l).map Prod.snd).sum = (l.map Prod.snd).sum + 1 := by
  induction l with
  | nil => simp [insertIncr]
  | cons hd tl ih =>
    obtain ⟨k2, c⟩ := hd
    unfold insertIncr
    split_ifs with h1 h2 <;> simp_all <;> omega

/-- Claim C2 (corrected), counterexample: the strings 0 and -5 are accepted by
BucketSize::from_string with their non-positive values, although the claim
says every non-positive numeric string is rejected at construction. -/
theorem claim_C2_counterexample :
    BucketSize.from_string (strL "0") = .ok (.Seconds (.finite 0)) ∧
    BucketSize.from_string (strL "-5") = .ok (.Seconds (.finite (-5))) := by
  constructor <;> decide

/-- Claim C2 (corrected, amended): construction fails exactly when the
lowercased string is not auto and the string is not accepted by the Rust f64
parser; positivity is never checked, so 0 and -5 are accepted. -/
theorem claim_C2_amended :
    ∀ s : Str,
      (BucketSize.from_string s = .error ()) ↔
        (lowerStr s ≠ strL "auto" ∧ parseF64 s = none) := by
  intro s
  unfold BucketSize.from_string
  split_ifs with h
  · simp [h]
  · cases hp : parseF64 s <;> simp [h, hp]

/-- Claim C3 (corrected), counterexample: a 900 second span has ideal width
60, the smallest ladder value greater than or equal to 60 is 60 itself, but
the code snaps to 300 (the comparisons are strict); and a 1 500 000 second
span has ideal width 100 000, whose upward day-multiple snap would be 172 800,
but the code floors downward to 86 400. -/
theorem claim_C3_counterexample :
    TimeBucket.calculate_auto_bucket_size 900 = 300 ∧
    spec_ladder_snap_up (900 / 15) = 60 ∧ (300 : ℚ) ≠ 60 ∧
    TimeBucket.calculate_auto_bucket_size 1500000 = 86400 ∧
    spec_ladder_snap_up (1500000 / 15) = 172800 ∧ (86400 : ℚ) ≠ 172800 := by
  have hfloor : (⌊(125 : ℚ) / 108⌋ : ℤ) = 1 := by
    rw [Int.floor_eq_iff]
    constructor <;> norm_num
  have hceil : (⌈(125 : ℚ) / 108⌉ : ℤ) = 2 := by
    rw [Int.ceil_eq_iff]
    constructor <;> norm_num
  refine ⟨?_, ?_, by norm_num, ?_, ?_, by norm_num⟩
  · unfold TimeBucket.calculate_auto_bucket_size
    norm_num
  · unfold spec_ladder_snap_up
    norm_num
  · unfold TimeBucket.calculate_auto_bucket_size
    norm_num [hfloor]
  · unfold spec_ladder_snap_up
    norm_num [hceil]

/-- Claim C3 (corrected, amended): before any instant is added Auto resolves
to 60 seconds and a 600 second span resolves to 60 seconds; for every
non-negative span with ideal width below 86 400 the resolved width is the
smallest base-ladder value strictly greater than the ideal (so exact rung
boundaries move up one rung), and for ideal width at least 86 400 the width
snaps downward to the greatest whole multiple of 86 400 not exceeding the
ideal. -/
theorem claim_C3_amended :
    TimeBucket.get_bucket_size ⟨.Auto, [], none, none⟩ = .finite 60 ∧
    TimeBucket.calculate_auto_bucket_size 600 = 60 ∧
    ∀ s : ℚ, 0 ≤ s →
      (s / 15 < 86400 →
        TimeBucket.calculate_auto_bucket_size s ∈ autoLadder ∧
        s / 15 < TimeBucket.calculate_auto_bucket_size s ∧
        ∀ r ∈ autoLadder, s / 15 < r → TimeBucket.calculate_auto_bucket_size s ≤ r) ∧
      (86400 ≤ s / 15 →
        TimeBucket.calculate_auto_bucket_size s ≤ s / 15 ∧
        s / 15 < TimeBucket.calculate_auto_bucket_size s + 86400 ∧
        ∃ n : ℤ, 1 ≤ n ∧ TimeBucket.calculate_auto_bucket_size s = (n : ℚ) * 86400) := by
  refine ⟨by decide, by unfold TimeBucket.calculate_auto_bucket_size; norm_num, ?_⟩
  intro s hs
  simp only [TimeBucket.calculate_auto_bucket_size]
  set i := s / 15 with hi
  have h86 : (0 : ℚ) < 86400 := by norm_num
  split_ifs with h1 h2 h3 h4 h5 h6 h7 h8
  · refine ⟨fun _ => ⟨by simp [autoLadder], by linarith, ?_⟩, fun hc => by linarith⟩
    intro r hr hir
    fin_cases hr <;> norm_num
  · push_neg at h1
    refine ⟨fun _ => ⟨by simp [autoLadder], by linarith, ?_⟩, fun hc => by linarith⟩
    intro r hr hir
    fin_cases hr <;> first | (exfalso; norm_num at hir ⊢; linarith) | norm_num
  · push_neg at h1 h2
    refine ⟨fun _ => ⟨by simp [autoLadder], by linarith, ?_⟩, fun hc => by linarith⟩
    intro r hr hir
    fin_cases hr <;> first | (exfalso; norm_num at hir ⊢; linarith) | norm_num
  · push_neg at h1 h2 h3
    refine ⟨fun _ => ⟨by simp [autoLadder], by linarith, ?_⟩, fun hc => by linarith⟩
    intro r hr hir
    fin_cases hr <;> first | (exfalso; norm_num at hir ⊢; linarith) | norm_num
  · push_neg at h1 h2 h3 h4
    refine ⟨fun _ => ⟨by simp [autoLadder], by linarith, ?_⟩, fun hc => by linarith⟩
    intro r hr hir
    fin_cases hr <;> first | (exfalso; norm_num at hir ⊢; linarith) | norm_num
  · push_neg at h1 h2 h3 h4 h5
    refine ⟨fun _ => ⟨by simp [autoLadder], by linarith, ?_⟩, fun hc => by linarith⟩
    intro r hr hir
    fin_cases hr <;> first | (exfalso; norm_num at hir ⊢; linarith) | norm_num
  · push_neg at h1 h2 h3 h4 h5 h6
    refine ⟨fun _ => ⟨by simp [autoLadder], by linarith, ?_⟩, fun hc => by linarith⟩
    intro r hr hir
    fin_cases hr <;> first | (exfalso; norm_num at hir ⊢; linarith) | norm_num
  · push_neg at h1 h2 h3 h4 h5 h6 h7
    refine ⟨fun _ => ⟨by simp [autoLadder], by linarith, ?_⟩, fun hc => by linarith⟩
    intro r hr hir
    fin_cases hr <;> first | (exfalso; norm_num at hir ⊢; linarith) | norm_num
  · push_neg at h1 h2 h3 h4 h5 h6 h7 h8
    refine ⟨fun hc => by linarith, fun _ => ?_⟩
    have hfl : ((⌊i / 86400⌋ : ℤ) : ℚ) ≤ i / 86400 := Int.floor_le _
    have hfl2 : i / 86400 < ((⌊i / 86400⌋ : ℤ) : ℚ) + 1 := Int.lt_floor_add_one _
    refine ⟨?_, ?_, ⟨⌊i / 86400⌋, ?_, rfl⟩⟩
    · have := mul_le_mul_of_nonneg_right hfl (le_of_lt h86)
      calc ((⌊i / 86400⌋ : ℤ) : ℚ) * 86400 ≤ i / 86400 * 86400 := this
        _ = i := by field_simp
    · have := mul_lt_mul_of_pos_right hfl2 h86
      have h2 : i / 86400 * 86400 = i := by field_simp
      nlinarith
    · rw [Int.le_floor]
      rw [le_div_iff₀ h86]
      push_cast
      linarith

/-- Claim C3 witness, instantiating the amended theorem at the 900 second
span. -/
theorem claim_C3_witness :
    (0 : ℚ) ≤ 900 ∧ TimeBucket.calculate_auto_bucket_size 900 ∈ autoLadder := by
  refine ⟨by norm_num, ?_⟩
  exact ((claim_C3_amended.2.2 900 (by norm_num)).1 (by norm_num)).1

/-- Claim C4 (corrected), counterexample: with a 60 second width the instant
one microsecond before the epoch is counted under key 0, not under the
floor-division key -60 000 000; and the instants -1 and -60 000 000
microseconds have equal floor quotients yet land in two distinct buckets. -/
theorem claim_C4_counterexample :
    (TimeBucket.new (some (strL "60"))).bind (fun b => b.add (-1)) =
      .ok ⟨.Seconds (.finite 60), [(0, 1)], some (-1), some (-1)⟩ ∧
    Int.fdiv (-1) 60000000 * 60000000 = -60000000 ∧ (0 : Int) ≠ -60000000 ∧
    ((TimeBucket.new (some (strL "60"))).bind (fun b => b.add (-1))).bind
        (fun b => b.add (-60000000)) =
      .ok ⟨.Seconds (.finite 60), [(-60000000, 1), (0, 1)], some (-60000000), some (-1)⟩ ∧
    Int.fdiv (-1) 60000000 = Int.fdiv (-60000000) 60000000 := by
  refine ⟨by decide, by decide, by decide, by decide, by decide⟩

/-- Claim C4 (corrected, amended): for a fixed positive effective width of M
microseconds the bucket key of an instant t is (t truncating-div M) * M, Rust
division truncating toward zero; this agrees with floor division exactly for
non-negative instants, and two instants with equal truncated quotients are
combined under one key. -/
theorem claim_C4_amended :
    ∀ (w : ℚ) (M : Int), (F64.finite w).mul1e6.toI64 = M → 0 < M →
      ∀ t t2 : Int,
        (TimeBucket.add ⟨.Seconds (.finite w), [], none, none⟩ t =
          .ok ⟨.Seconds (.finite w), [(Int.tdiv t M * M, 1)], some t, some t⟩) ∧
        (0 ≤ t → Int.tdiv t M * M = Int.fdiv t M * M) ∧
        (Int.tdiv t2 M = Int.tdiv t M →
          ∃ b2, (TimeBucket.add ⟨.Seconds (.finite w), [], none, none⟩ t).bind
              (fun b => b.add t2) = .ok b2 ∧ b2.buckets = [(Int.tdiv t M * M, 2)]) := by
  intro w M hM hMpos t t2
  have hMne : ¬ M = 0 := by omega
  have hstep : TimeBucket.add ⟨.Seconds (.finite w), [], none, none⟩ t =
      .ok ⟨.Seconds (.finite w), [(Int.tdiv t M * M, 1)], some t, some t⟩ := by
    unfold TimeBucket.add
    simp only [TimeBucket.get_bucket_size, hM]
    simp [hMne, insertIncr]
  refine ⟨hstep, ?_, ?_⟩
  · intro ht
    rw [Int.fdiv_eq_tdiv ht (le_of_lt hMpos)]
  · intro heq
    have hadd2 : TimeBucket.add
        ⟨.Seconds (.finite w), [(Int.tdiv t M * M, 1)], some t, some t⟩ t2 =
        .ok ⟨.Seconds (.finite w), [(Int.tdiv t M * M, 2)],
          (if t2 < t then some t2 else some t), (if t < t2 then some t2 else some t)⟩ := by
      unfold TimeBucket.add
      simp only [TimeBucket.get_bucket_size, hM]
      simp [hMne, heq, insertIncr]
    rw [hstep]
    simp only [Except.bind]
    exact ⟨_, hadd2, rfl⟩

/-- Claim C4 witness, instantiating the amended theorem at width 60 seconds
and the instant 125 seconds after the epoch. -/
theorem claim_C4_witness :
    TimeBucket.add ⟨.Seconds (.finite 60), [], none, none⟩ 125000000 =
      .ok ⟨.Seconds (.finite 60), [(120000000, 1)], some 125000000, some 125000000⟩ := by
  have h := (claim_C4_amended 60 60000000 (by decide) (by decide) 125000000 130000000).1
  have hk : Int.tdiv 125000000 60000000 * 60000000 = 120000000 := by decide
  rw [hk] at h
  exact h

/-- Claim C10 (corrected), counterexample: the accepted width string -5 has an
effective width of -5 000 000 microseconds, far below one microsecond, yet add
is total there: it succeeds and raises the total count to one, refuting the
only-if direction of the claim. -/
theorem claim_C10_counterexample :
    (F64.finite (-5)).mul1e6.toI64 = -5000000 ∧
    ¬ (1 ≤ (-5000000 : Int)) ∧
    (TimeBucket.new (some (strL "-5"))).bind (fun b => b.add 0) =
      .ok ⟨.Seconds (.finite (-5)), [(0, 1)], some 0, some 0⟩ ∧
    ((TimeBucket.new (some (strL "-5"))).bind (fun b => b.add 0)).map
        TimeBucket.total_matches = .ok 1 := by
  refine ⟨by decide, by decide, by decide, by decide⟩

/-- Claim C10 (corrected, amended): the accepted width strings 0 and
0.0000001 both truncate to an effective width of zero microseconds, and with
a fixed width every add call panics (divides by zero) exactly when the
effective width truncates to zero microseconds; for any non-zero effective
width, including negative ones, add is total and increments the total count
by exactly one. -/
theorem claim_C10_amended :
    (BucketSize.from_string (strL "0") = .ok (.Seconds (.finite 0)) ∧
      (F64.finite 0).mul1e6.toI64 = 0) ∧
    (BucketSize.from_string (strL "0.0000001") = .ok (.Seconds (.finite (mkRat 1 10000000))) ∧
      (F64.finite (mkRat 1 10000000)).mul1e6.toI64 = 0) ∧
    ∀ (f : F64) (b : TimeBucket) (t : Int), b.bucket_size = .Seconds f →
      (f.mul1e6.toI64 = 0 → b.add t = .error ()) ∧
      (f.mul1e6.toI64 ≠ 0 →
        ∃ b2, b.add t = .ok b2 ∧ b2.total_matches = b.total_matches + 1) := by
  refine ⟨⟨by decide, by decide⟩, ⟨by decide, by decide⟩, ?_⟩
  intro f b t hb
  constructor
  · intro hz
    unfold TimeBucket.add
    simp only [TimeBucket.get_bucket_size, hb, hz]
    simp
  · intro hnz
    unfold TimeBucket.add
    simp only [TimeBucket.get_bucket_size, hb]
    simp only [hnz, if_false, reduceIte]
    refine ⟨_, rfl, ?_⟩
    unfold TimeBucket.total_matches
    simp [insertIncr_total]

/-- Claim C10 witness, instantiating the amended theorem at the accepted
width string 0, where every add panics. -/
theorem claim_C10_witness :
    TimeBucket.add ⟨.Seconds (.finite 0), [], none, none⟩ 5 = .error () :=
  (claim_C10_amended.2.2 (.finite 0) ⟨.Seconds (.finite 0), [], none, none⟩ 5 rfl).1
    (by decide)

end Logpile

namespace Logpile


/-- Error taxonomy of run_batch_mode. -/
inductive RunError where
  | noTimestampsDetected
  | noMatchingLines
  | noMatchesInAnyFile
deriving DecidableEq, Repr

/-- How the per-source line loop ended. -/
inductive LoopExit where
  | finished
  | brokeEarly
  | fatalNoTs
deriving DecidableEq, Repr

/-- Result of draining (part of) one source. -/
structure SourceRun where
  consumed : Nat
  matching : Nat
  found : Bool
  adds : List Int
  exit : LoopExit
deriving DecidableEq, Repr

/-- Configuration of the batch driver. -/
structure BatchCfg where
  matchesPatterns : Str → Bool
  parseLine : Str → Option Int
  failQuick : Bool
  timeFormatIsNone : Bool

/-- The per-source line loop of run_batch_mode. -/
def sourceLoop (cfg : BatchCfg) : List Str → Nat → Nat → Bool → List Int → SourceRun
  | [], lp, ml, found, adds => ⟨lp, ml, found, adds, .finished⟩
  | l :: ls, lp, ml, found, adds =>
    if cfg.matchesPatterns l then
      match cfg.parseLine l with
      | some ts => sourceLoop cfg ls (lp + 1) (ml + 1) true (adds ++ [ts])
      | none =>
        if 10 < ml + 1 ∧ found = false ∧ cfg.timeFormatIsNone = true then
          if cfg.failQuick then ⟨lp + 1, ml + 1, found, adds, .fatalNoTs⟩
          else ⟨lp + 1, ml + 1, found, adds, .brokeEarly⟩
        else sourceLoop cfg ls (lp + 1) (ml + 1) found adds
    else sourceLoop cfg ls (lp + 1) ml found adds

/-- The source-by-source driver loop of run_batch_mode. -/
def runBatchAux (cfg : BatchCfg) :
    List (List Str) → Nat → Nat → List Int → Except RunError (List Int)
  | [], totalFiles, filesWithMatches, adds =>
    if 0 < totalFiles ∧ filesWithMatches = 0 then .error .noMatchesInAnyFile else .ok adds
  | src :: rest, totalFiles, filesWithMatches, adds =>
    let r := sourceLoop cfg src 0 0 false []
    let adds2 := adds ++ r.adds
    match r.exit with
    | .fatalNoTs => .error .noTimestampsDetected
    | _ =>
      if 0 < r.consumed ∧ r.matching = 0 then
        if cfg.failQuick then .error .noMatchingLines
        else runBatchAux cfg rest (totalFiles + 1) filesWithMatches adds2
      else if 0 < r.matching ∧ r.found = false ∧ cfg.timeFormatIsNone = true then
        if cfg.failQuick then .error .noTimestampsDetected
        else runBatchAux cfg rest (totalFiles + 1) filesWithMatches adds2
      else
        runBatchAux cfg rest (totalFiles + 1)
          (if 0 < r.matching then filesWithMatches + 1 else filesWithMatches) adds2

/-- LogProcessor::run_batch_mode over a list of sources. -/
def run_batch_mode (cfg : BatchCfg) (sources : List (List Str)) : Except RunError (List Int) :=
  runBatchAux cfg sources 0 0 []

/-- With a timestamp already found, the loop always drains the source. -/
theorem sourceLoop_found (cfg : BatchCfg) :
    ∀ (src : List Str) (lp ml : Nat) (adds : List Int),
      ∃ ml2 adds2, sourceLoop cfg src lp ml true adds =
        ⟨lp + src.length, ml2, true, adds2, .finished⟩ := by
  intro src
  induction src with
  | nil => intro lp ml adds; exact ⟨ml, adds, by simp [sourceLoop]⟩
  | cons l ls ih =>
    intro lp ml adds
    unfold sourceLoop
    by_cases hm : cfg.matchesPatterns l
    · simp only [hm, if_true]
      cases hp : cfg.parseLine l with
      | some ts =>
        obtain ⟨m2, a2, h⟩ := ih (lp + 1) (ml + 1) (adds ++ [ts])
        refine ⟨m2, a2, ?_⟩
        simp only [h]
        have hlen2 : lp + 1 + ls.length = lp + (l :: ls).length := by
          simp [List.length_cons]
          omega
        rw [hlen2]
      | none =>
        have : ¬ (10 < ml + 1 ∧ True = false ∧ cfg.timeFormatIsNone = true) := by simp
        obtain ⟨m2, a2, h⟩ := ih (lp + 1) (ml + 1) adds
        refine ⟨m2, a2, ?_⟩
        simp only [show (true = false) = False by simp, false_and, and_false, if_neg, not_false_iff]
        simp only [h]
        have hlen2 : lp + 1 + ls.length = lp + (l :: ls).length := by
          simp [List.length_cons]
          omega
        rw [hlen2]
    · rw [if_neg hm]
      obtain ⟨m2, a2, h⟩ := ih (lp + 1) ml adds
      refine ⟨m2, a2, ?_⟩
      simp only [h]
      have hlen2 : lp + 1 + ls.length = lp + (l :: ls).length := by
        simp [List.length_cons]
        omega
      rw [hlen2]



/-- With a custom timestamp format configured the loop never exits early. -/
theorem sourceLoop_custom (cfg : BatchCfg) (hc : cfg.timeFormatIsNone = false) :
    ∀ (src : List Str) (lp ml : Nat) (found : Bool) (adds : List Int),
      (sourceLoop cfg src lp ml found adds).exit = .finished ∧
      (sourceLoop cfg src lp ml found adds).consumed = lp + src.length := by
  intro src
  induction src with
  | nil => intro lp ml found adds; simp [sourceLoop]
  | cons l ls ih =>
    intro lp ml found adds
    unfold sourceLoop
    by_cases hm : cfg.matchesPatterns l
    · simp only [hm, if_true]
      cases hp : cfg.parseLine l with
      | some ts =>
        have h := ih (lp + 1) (ml + 1) true (adds ++ [ts])
        refine ⟨h.1, ?_⟩
        rw [h.2]
        simp [List.length_cons]
        omega
      | none =>
        rw [if_neg (by simp [hc])]
        have h := ih (lp + 1) (ml + 1) found adds
        refine ⟨h.1, ?_⟩
        rw [h.2]
        simp [List.length_cons]
        omega
    · rw [if_neg hm]
      have h := ih (lp + 1) ml found adds
      refine ⟨h.1, ?_⟩
      rw [h.2]
      simp [List.length_cons]
      omega

/-- A source without any content-matching line is always fully drained with
zero matches and no timestamp. -/
theorem sourceLoop_no_match (cfg : BatchCfg) :
    ∀ (src : List Str), src.countP cfg.matchesPatterns = 0 →
      ∀ (lp ml : Nat) (found : Bool) (adds : List Int),
        sourceLoop cfg src lp ml found adds = ⟨lp + src.length, ml, found, adds, .finished⟩ := by
  intro src
  induction src with
  | nil => intro _ lp ml found adds; simp [sourceLoop]
  | cons l ls ih =>
    intro hz lp ml found adds
    have hm : cfg.matchesPatterns l = false := by
      by_contra hb
      simp only [Bool.not_eq_false] at hb
      rw [List.countP_cons, hb] at hz
      simp at hz
    have hz2 : ls.countP cfg.matchesPatterns = 0 := by
      rw [List.countP_cons, hm] at hz
      simpa using hz
    unfold sourceLoop
    rw [if_neg (by simp [hm])]
    rw [ih hz2 (lp + 1) ml found adds]
    simp [List.length_cons]
    omega



/-- If the next 11 - ml content-matching lines all fail to parse, with no
custom format, no success so far and ml matching lines already counted, the
loop stops exactly at the (11 - ml)-th further matching line: fatally in
fail-quick mode, with an early break otherwise. -/
theorem sourceLoop_all_fail (cfg : BatchCfg) (hc : cfg.timeFormatIsNone = true) :
    ∀ (src : List Str) (lp ml : Nat) (adds : List Int), ml ≤ 10 →
      ((src.filter cfg.matchesPatterns).take (11 - ml)).length = 11 - ml →
      (∀ l ∈ (src.filter cfg.matchesPatterns).take (11 - ml), cfg.parseLine l = none) →
      ∃ n, n ≤ src.length ∧
        sourceLoop cfg src lp ml false adds =
          ⟨lp + n, 11, false, adds,
            if cfg.failQuick then .fatalNoTs else .brokeEarly⟩ ∧
        (src.take n).countP cfg.matchesPatterns = 11 - ml := by
  intro src
  induction src with
  | nil =>
    intro lp ml adds hml hlen _
    exfalso
    simp at hlen
    omega
  | cons l ls ih =>
    intro lp ml adds hml hlen hfail
    by_cases hm : cfg.matchesPatterns l = true
    · have hfilter : (l :: ls).filter cfg.matchesPatterns =
          l :: ls.filter cfg.matchesPatterns := by
        simp [List.filter_cons, hm]
      have h11 : 11 - ml = (10 - ml) + 1 := by omega
      rw [hfilter, h11, List.take_succ_cons] at hlen hfail
      have hplnone : cfg.parseLine l = none := hfail l (by simp)
      by_cases hml10 : ml = 10
      · subst hml10
        refine ⟨1, by simp, ?_, ?_⟩
        · unfold sourceLoop
          rw [if_pos hm]
          simp only [hplnone]
          rw [if_pos (by simp [hc])]
          cases hq : cfg.failQuick <;> simp
        · simp [List.countP_cons, hm]
      · have hml2 : ml + 1 ≤ 10 := by omega
        have h10 : 10 - ml = 11 - (ml + 1) := by omega
        rw [h10] at hlen hfail
        simp only [List.length_cons] at hlen
        obtain ⟨n, hn, hloop, hcount⟩ := ih (lp + 1) (ml + 1) adds hml2 (by omega)
          (fun x hx => hfail x (List.mem_cons_of_mem _ hx))
        refine ⟨n + 1, by simp; omega, ?_, ?_⟩
        · unfold sourceLoop
          rw [if_pos hm]
          simp only [hplnone]
          rw [if_neg (by intro hcontra; omega)]
          rw [hloop]
          congr 1
          omega
        · rw [List.take_succ_cons, List.countP_cons, hm]
          simp only [if_pos]
          omega
    · have hfilter : (l :: ls).filter cfg.matchesPatterns =
          ls.filter cfg.matchesPatterns := by
        simp [List.filter_cons, hm]
      rw [hfilter] at hlen hfail
      obtain ⟨n, hn, hloop, hcount⟩ := ih (lp + 1) ml adds hml hlen hfail
      refine ⟨n + 1, by simp; omega, ?_, ?_⟩
      · unfold sourceLoop
        rw [if_neg hm, hloop]
        congr 1
        omega
      · rw [List.take_succ_cons, List.countP_cons]
        simp only [hm]
        simpa using hcount



/-- If one of the next 11 - ml content-matching lines parses successfully, the
loop never aborts: the source is fully drained. -/
theorem sourceLoop_success (cfg : BatchCfg) :
    ∀ (src : List Str) (lp ml : Nat) (adds : List Int), ml ≤ 10 →
      (∃ l ∈ (src.filter cfg.matchesPatterns).take (11 - ml), (cfg.parseLine l).isSome = true) →
      (sourceLoop cfg src lp ml false adds).exit = .finished ∧
      (sourceLoop cfg src lp ml false adds).consumed = lp + src.length := by
  intro src
  induction src with
  | nil =>
    intro lp ml adds _ hex
    simp at hex
  | cons l ls ih =>
    intro lp ml adds hml hex
    by_cases hm : cfg.matchesPatterns l = true
    · have hfilter : (l :: ls).filter cfg.matchesPatterns =
          l :: ls.filter cfg.matchesPatterns := by
        simp [List.filter_cons, hm]
      have h11 : 11 - ml = (10 - ml) + 1 := by omega
      rw [hfilter, h11, List.take_succ_cons] at hex
      cases hp : cfg.parseLine l with
      | some ts =>
        unfold sourceLoop
        rw [if_pos hm]
        simp only [hp]
        obtain ⟨m2, a2, h⟩ := sourceLoop_found cfg ls (lp + 1) (ml + 1) (adds ++ [ts])
        rw [h]
        refine ⟨rfl, ?_⟩
        simp [List.length_cons]
        omega
      | none =>
        have hml10 : ¬ ml = 10 := by
          intro hq
          subst hq
          obtain ⟨x, hx, hsome⟩ := hex
          simp at hx
          subst hx
          rw [hp] at hsome
          simp at hsome
        have hextail : ∃ x ∈ (ls.filter cfg.matchesPatterns).take (11 - (ml + 1)),
            (cfg.parseLine x).isSome = true := by
          obtain ⟨x, hx, hsome⟩ := hex
          rcases List.mem_cons.mp hx with hxl | hxtail
          · subst hxl
            rw [hp] at hsome
            simp at hsome
          · exact ⟨x, by rw [show 11 - (ml + 1) = 10 - ml by omega]; exact hxtail, hsome⟩
        unfold sourceLoop
        rw [if_pos hm]
        simp only [hp]
        rw [if_neg (by intro hcontra; omega)]
        obtain ⟨he, hcons⟩ := ih (lp + 1) (ml + 1) adds (by omega) hextail
        refine ⟨he, ?_⟩
        rw [hcons]
        simp [List.length_cons]
        omega
    · have hfilter : (l :: ls).filter cfg.matchesPatterns =
          ls.filter cfg.matchesPatterns := by
        simp [List.filter_cons, hm]
      rw [hfilter] at hex
      unfold sourceLoop
      rw [if_neg hm]
      obtain ⟨he, hcons⟩ := ih (lp + 1) ml adds hml hex
      refine ⟨he, ?_⟩
      rw [hcons]
      simp [List.length_cons]
      omega



/-- Claim C7 (confirmed): with no custom format, once 11 content-matching
lines of a source have all failed timestamp extraction the scan stops reading
that source with exactly 11 matching lines in the consumed prefix (so the
12th matching line is never read); in fail-quick mode the whole run aborts
with NoTimestampsDetected, in lenient mode the rest of the source is
abandoned and the run continues with the next source; and no early stop
happens when one of those 11 lines parses, or when a custom format is
configured. -/
theorem claim_C7 :
    ∀ (cfg : BatchCfg) (src : List Str) (rest : List (List Str)),
      (cfg.timeFormatIsNone = true →
        ((src.filter cfg.matchesPatterns).take 11).length = 11 →
        (∀ l ∈ (src.filter cfg.matchesPatterns).take 11, cfg.parseLine l = none) →
        ∃ n, n ≤ src.length ∧
          (src.take n).countP cfg.matchesPatterns = 11 ∧
          sourceLoop cfg src 0 0 false [] =
            ⟨n, 11, false, [], if cfg.failQuick then .fatalNoTs else .brokeEarly⟩ ∧
          (cfg.failQuick = true →
            run_batch_mode cfg (src :: rest) = .error .noTimestampsDetected) ∧
          (cfg.failQuick = false →
            run_batch_mode cfg (src :: rest) = runBatchAux cfg rest 1 0 [])) ∧
      (cfg.timeFormatIsNone = true →
        (∃ l ∈ (src.filter cfg.matchesPatterns).take 11, (cfg.parseLine l).isSome = true) →
        (sourceLoop cfg src 0 0 false []).exit = .finished ∧
        (sourceLoop cfg src 0 0 false []).consumed = src.length) ∧
      (cfg.timeFormatIsNone = false →
        (sourceLoop cfg src 0 0 false []).exit = .finished ∧
        (sourceLoop cfg src 0 0 false []).consumed = src.length) := by
  intro cfg src rest
  refine ⟨?_, ?_, ?_⟩
  · intro hc hlen hfail
    obtain ⟨n, hn, hloop, hcount⟩ :=
      sourceLoop_all_fail cfg hc src 0 0 [] (by omega) (by simpa using hlen)
        (by simpa using hfail)
    have hloop2 : sourceLoop cfg src 0 0 false [] =
        ⟨n, 11, false, [], if cfg.failQuick then .fatalNoTs else .brokeEarly⟩ := by
      simpa using hloop
    refine ⟨n, hn, by simpa using hcount, hloop2, ?_, ?_⟩
    · intro hq
      unfold run_batch_mode
      conv_lhs => rw [runBatchAux]
      rw [hloop2, hq]
      simp
    · intro hq
      unfold run_batch_mode
      conv_lhs => rw [runBatchAux]
      rw [hloop2, hq]
      simp [hc]
  · intro hc hex
    have h := sourceLoop_success cfg src 0 0 [] (by omega) (by simpa using hex)
    exact ⟨h.1, by simpa using h.2⟩
  · intro hc
    have h := sourceLoop_custom cfg hc src 0 0 false []
    exact ⟨h.1, by simpa using h.2⟩

/-- Claim C8 (corrected, amended): a fully-consumed source with at least one
line and zero content-matching lines triggers the NoMatchingLines branch,
fatal in fail-quick mode and skip-and-continue in lenient mode; a source with
zero lines however skips the branch entirely and processing silently moves to
the next source. -/
theorem claim_C8_amended :
    ∀ (cfg : BatchCfg) (src : List Str) (rest : List (List Str)) (tf fwm : Nat)
      (adds : List Int),
      (src ≠ [] → src.countP cfg.matchesPatterns = 0 →
        (cfg.failQuick = true →
          runBatchAux cfg (src :: rest) tf fwm adds = .error .noMatchingLines) ∧
        (cfg.failQuick = false →
          runBatchAux cfg (src :: rest) tf fwm adds = runBatchAux cfg rest (tf + 1) fwm adds)) ∧
      (src = [] →
        runBatchAux cfg (src :: rest) tf fwm adds = runBatchAux cfg rest (tf + 1) fwm adds) := by
  intro cfg src rest tf fwm adds
  constructor
  · intro hne hz
    have hloop := sourceLoop_no_match cfg src hz 0 0 false []
    have hlen : 0 < src.length := List.length_pos.mpr hne
    constructor
    · intro hq
      conv_lhs => rw [runBatchAux]
      rw [hloop, hq]
      simp [hlen]
    · intro hq
      conv_lhs => rw [runBatchAux]
      rw [hloop, hq]
      simp [hlen]
  · intro hempty
    subst hempty
    conv_lhs => rw [runBatchAux]
    simp [sourceLoop]

/-- Claim C8 (corrected), counterexample: in fail-quick mode a zero-line
source does not abort the run with NoMatchingLines as the claim requires: a
run whose first source is empty and whose second source matches succeeds
overall, and a run with only an empty source fails with the distinct
NoMatchesInAnyFile error. -/
theorem claim_C8_counterexample :
    run_batch_mode ⟨fun _ => true, fun _ => some 0, true, true⟩ [[], [strL "x"]] = .ok [0] ∧
    run_batch_mode ⟨fun _ => true, fun _ => some 0, true, true⟩ [[]] =
      .error .noMatchesInAnyFile ∧
    RunError.noMatchesInAnyFile ≠ RunError.noMatchingLines := by
  refine ⟨by rfl, by rfl, by decide⟩

/-- Claim C7 witness: a single source of 12 identical unparseable matching
lines aborts a fail-quick run with NoTimestampsDetected. -/
theorem claim_C7_witness :
    run_batch_mode ⟨fun _ => true, fun _ => none, true, true⟩
      [List.replicate 12 (strL "x")] = .error .noTimestampsDetected := by
  obtain ⟨n, hn, hcount, hloop, hfq, hlen⟩ :=
    (claim_C7 ⟨fun _ => true, fun _ => none, true, true⟩ (List.replicate 12 (strL "x")) []).1
      rfl (by rfl) (fun l _ => rfl)
  exact hfq rfl

/-- Claim C8 witness: one non-empty source with no matching line makes a
fail-quick run abort with NoMatchingLines. -/
theorem claim_C8_witness :
    runBatchAux ⟨fun _ => false, fun _ => none, true, true⟩ [[strL "x"]] 0 0 [] =
      .error .noMatchingLines :=
  (((claim_C8_amended ⟨fun _ => false, fun _ => none, true, true⟩ [strL "x"] [] 0 0 []).1
      (by simp) (by rfl)).1) rfl


end Logpile

namespace Logpile

/-! ## Embedding of src/timestamp.rs

The eight recognizer regexes are embedded as hand-written matchers with the
leftmost-match, greedy-with-backtracking semantics of the regex crate, and the
chrono format-table parser is embedded as an executable interpreter of the
strftime directives appearing in the source.  Everything here computes over
integers and characters so the kernel can evaluate concrete lines. -/

/-- Consume one expected character. -/
def eatCh (c : Char) : Str → Option (List Char × Str)
  | x :: r => if x = c then some ([x], r) else none
  | [] => none

/-- Consume one character of a class. -/
def eatClass (p : Char → Bool) : Str → Option (List Char × Str)
  | x :: r => if p x then some ([x], r) else none
  | [] => none

/-- Consume exactly n decimal digits. -/
def eatDigits : Nat → Str → Option (List Char × Str)
  | 0, s => some ([], s)
  | n + 1, x :: r =>
    if isDigitCh x then (fun p => (x :: p.1, p.2)) <$> eatDigits n r else none
  | _ + 1, [] => none

/-- Greedy run of characters of a class, possibly empty. -/
def takeRun (p : Char → Bool) : Str → (List Char × Str)
  | [] => ([], [])
  | x :: r =>
    if p x then
      let (a, b) := takeRun p r
      (x :: a, b)
    else ([], x :: r)

/-- Greedy run of one or more characters of a class. -/
def eatRun1 (p : Char → Bool) (s : Str) : Option (List Char × Str) :=
  match takeRun p s with
  | ([], _) => none
  | (a, b) => some (a, b)

/-- Optional fractional part: a dot followed by one or more digits, greedy;
matches the empty string when the group cannot match. -/
def optFracAt (s : Str) : (List Char × Str) :=
  match s with
  | '.' :: r =>
    match takeRun isDigitCh r with
    | ([], _) => ([], '.' :: r)
    | (ds, rest) => ('.' :: ds, rest)
  | _ => ([], s)

/-- Optional trailing timezone of the ISO recognizer: Z, or a sign with
HH:MM; matches the empty string when neither alternative matches. -/
def optIsoTzAt (s : Str) : (List Char × Str) :=
  match s with
  | 'Z' :: r => (['Z'], r)
  | c :: r =>
    if c = '+' || c = '-' then
      match eatDigits 2 r with
      | some (d1, r1) =>
        match r1 with
        | ':' :: r2 =>
          match eatDigits 2 r2 with
          | some (d2, r3) => (c :: (d1 ++ ':' :: d2), r3)
          | none => ([], c :: r)
        | _ => ([], c :: r)
      | none => ([], c :: r)
    else ([], c :: r)
  | [] => ([], [])

/-- One regex token: a literal character, a one-character class, an exact
count of decimal digits, or a non-empty whitespace run. -/
inductive RTok where
  | ch (c : Char)
  | cls (p : Char → Bool)
  | digits (n : Nat)
  | ws1

/-- Run one token at the current position. -/
def runTok : RTok → Str → Option (List Char × Str)
  | .ch c, s => eatCh c s
  | .cls p, s => eatClass p s
  | .digits n, s => eatDigits n s
  | .ws1, s => eatRun1 isSpaceCh s

/-- Run a token sequence, concatenating the matched text. -/
def runToks : List RTok → Str → Option (List Char × Str)
  | [], s => some ([], s)
  | t :: ts, s =>
    match runTok t s with
    | some (a, s1) =>
      match runToks ts s1 with
      | some (b, s2) => some (a ++ b, s2)
      | none => none
    | none => none

/-- Token sequence for HH:MM:SS. -/
def tokHMS : List RTok := [.digits 2, .ch ':', .digits 2, .ch ':', .digits 2]

/-- Tail of the ISO recognizer after the year digits. -/
def isoTailAt (s : Str) : Option (List Char) :=
  match runToks ([.ch '-', .digits 2, .ch '-', .digits 2,
      .cls (fun c => c = 'T' || c = ' ')] ++ tokHMS) s with
  | some (a, s1) =>
    let (f, s2) := optFracAt s1
    let (z, _) := optIsoTzAt s2
    some (a ++ f ++ z)
  | none => none

/-- The ISO recognizer with exactly k year digits. -/
def isoAtK (k : Nat) (s : Str) : Option (List Char) :=
  match eatDigits k s with
  | some (y, s1) => (fun t => y ++ t) <$> isoTailAt s1
  | none => none

/-- The ISO recognizer at one position (2-4 year digits, greedy). -/
def isoAt (s : Str) : Option (List Char) :=
  isoAtK 4 s <|> isoAtK 3 s <|> isoAtK 2 s

/-- A dash or slash date separator. -/
def dtSep (s : Str) : Option (List Char × Str) :=
  eatClass (fun c => c = '-' || c = '/') s

/-- Tail of the slash-date recognizer after the year: whitespace then
HH:MM:SS with optional fraction. -/
def datetimeTimeTail (s : Str) : Option (List Char) :=
  match runToks (RTok.ws1 :: tokHMS) s with
  | some (a, s1) =>
    let (f, _) := optFracAt s1
    some (a ++ f)
  | none => none

/-- Year of the slash-date recognizer with exactly k digits, plus time. -/
def datetimeYearTailK (k : Nat) (s : Str) : Option (List Char) :=
  match eatDigits k s with
  | some (y, s1) => (fun t => y ++ t) <$> datetimeTimeTail s1
  | none => none

/-- Year of the slash-date recognizer (2-4 digits, greedy) plus time. -/
def datetimeYearTail (s : Str) : Option (List Char) :=
  datetimeYearTailK 4 s <|> datetimeYearTailK 3 s <|> datetimeYearTailK 2 s

/-- Second date component of the slash-date recognizer with exactly k digits,
plus separator, year and time. -/
def datetimeSecondCompK (k : Nat) (s : Str) : Option (List Char) :=
  match eatDigits k s with
  | some (d2, s1) =>
    match dtSep s1 with
    | some (p2, s2) => (fun y => d2 ++ p2 ++ y) <$> datetimeYearTail s2
    | none => none
  | none => none

/-- Second date component of the slash-date recognizer (1-2 digits, greedy). -/
def datetimeSecondComp (s : Str) : Option (List Char) :=
  datetimeSecondCompK 2 s <|> datetimeSecondCompK 1 s

/-- First date component of the slash-date recognizer with exactly k digits. -/
def datetimeAtK (k : Nat) (s : Str) : Option (List Char) :=
  match eatDigits k s with
  | some (d1, s1) =>
    match dtSep s1 with
    | some (p1, s2) => (fun t => d1 ++ p1 ++ t) <$> datetimeSecondComp s2
    | none => none
  | none => none

/-- The EU/US slash-date recognizer at one position. -/
def datetimeAt (s : Str) : Option (List Char) :=
  datetimeAtK 2 s <|> datetimeAtK 1 s

/-- Exactly k day digits followed by whitespace. -/
def day12wsK (k : Nat) (s : Str) : Option (List Char × Str) :=
  match eatDigits k s with
  | some (d, s1) =>
    match eatRun1 isSpaceCh s1 with
    | some (w, s2) => some (d ++ w, s2)
    | none => none
  | none => none

/-- One or two day digits followed by whitespace, greedy. -/
def day12ws (s : Str) : Option (List Char × Str) :=
  day12wsK 2 s <|> day12wsK 1 s

/-- The syslog recognizer at one position. -/
def syslogAt (s : Str) : Option (List Char) :=
  match runToks [.cls isUpperCh, .cls isLowerCh, .cls isLowerCh, .ws1] s with
  | some (a, s1) =>
    match day12ws s1 with
    | some (dw, s2) => (fun p => a ++ dw ++ p.1) <$> runToks tokHMS s2
    | none => none
  | none => none

/-- The Apache/Nginx bracketed recognizer at one position. -/
def apacheAt (s : Str) : Option (List Char) :=
  (fun p => p.1) <$> runToks ([.ch '[', .digits 2, .ch '/', .cls isUpperCh,
    .cls isLowerCh, .cls isLowerCh, .ch '/', .digits 4, .ch ':'] ++ tokHMS ++
    [.ws1, .cls (fun c => c = '+' || c = '-'), .digits 4, .ch ']']) s

/-- The RFC-2822 recognizer at one position. -/
def rfc2822At (s : Str) : Option (List Char) :=
  (fun p => p.1) <$> runToks ([.cls isUpperCh, .cls isLowerCh, .cls isLowerCh,
    .ch ',', .ws1, .digits 2, .ws1, .cls isUpperCh, .cls isLowerCh, .cls isLowerCh,
    .ws1, .digits 4, .ws1] ++ tokHMS) s

/-- The anchored Unix-epoch recognizer (ten digits at the start of the line,
optional fraction). -/
def unixAt (s : Str) : Option (List Char) :=
  match eatDigits 10 s with
  | some (d, s1) =>
    let (f, _) := optFracAt s1
    some (d ++ f)
  | none => none

/-- The yearless ISO recognizer at one position. -/
def yearlessAt (s : Str) : Option (List Char) :=
  match runToks [.digits 2, .ch '-', .digits 2, .ch 'T', .digits 2, .ch ':',
      .digits 2, .ch ':', .digits 2] s with
  | some (a, s1) =>
    let (f, s2) := optFracAt s1
    let z : List Char :=
      match s2 with
      | 'Z' :: _ => ['Z']
      | _ => []
    some (a ++ f ++ z)
  | none => none

/-- The bare time-of-day recognizer at one position. -/
def timeOnlyAt (s : Str) : Option (List Char) :=
  match runToks tokHMS s with
  | some (a, s1) =>
    let (f, _) := optFracAt s1
    some (a ++ f)
  | none => none

/-- Regex find: the match at the leftmost position where the matcher
succeeds. -/
def findRx (m : Str → Option (List Char)) : Str → Option (List Char)
  | [] => m []
  | c :: rest =>
    match m (c :: rest) with
    | some t => some t
    | none => findRx m rest

/-- Turn an optional match into a candidate list. -/
def optToList : Option (List Char) → List Str
  | some t => [t]
  | none => []

/-- UTF-8 byte length of a string (Rust str len). -/
def utf8Len (s : Str) : Nat := (s.map Char.utf8Size).sum

/-- Rust byte slicing line[..n]: take the characters covering exactly the
first n bytes, or fail (panic) when n is not a character boundary. -/
def byteTake : Str → Nat → Option Str
  | _, 0 => some []
  | [], _ + 1 => none
  | c :: cs, n + 1 =>
    if c.utf8Size ≤ n + 1 then (fun t => c :: t) <$> byteTake cs (n + 1 - c.utf8Size)
    else none

/-- TimestampParser::extract_timestamp_candidates: run the recognizers in the
fixed class order; if none matched and the line is at least 10 bytes long,
slice the first min(len, 50) bytes as a fallback candidate.  The byte slice
panics (Except.error) when the cut is not a character boundary.  The Unix
recognizer is anchored at the start of the line, so its match always begins
at position 0 and the source check start < 5 always holds. -/
def TimestampParser.extract_timestamp_candidates (line : Str) : Except Unit (List Str) :=
  let candidates :=
    optToList (unixAt line) ++
    optToList (findRx isoAt line) ++
    optToList (findRx apacheAt line) ++
    optToList (findRx rfc2822At line) ++
    optToList (findRx datetimeAt line) ++
    optToList (findRx syslogAt line) ++
    optToList (findRx yearlessAt line) ++
    optToList (findRx timeOnlyAt line)
  if candidates.isEmpty && 10 ≤ utf8Len line then
    match byteTake line (min (utf8Len line) 50) with
    | some p => .ok [p]
    | none => .error ()
  else .ok candidates

end Logpile

namespace Logpile

/-! ## Embedding of the chrono parsing used by parse_with_format

Only the strftime directives appearing in COMMON_FORMATS and in the formats
synthesised by the year/date injection branches are modelled: numeric year,
month, day, hour, minute, second, fractional seconds, abbreviated month and
weekday names, and the two timezone-offset forms.  Semantics follow chrono:
numeric items skip leading whitespace and read one to width digits (a signed
year reads all digits after the sign), whitespace in the format skips any
amount of input whitespace, parsing fails on trailing input, and the parsed
fields are validated and assembled at the end. -/

/-- One parsed strftime item. -/
inductive FmtItem where
  | lit (c : Char)
  | space
  | numYear
  | numMonth
  | numDay
  | numHour
  | numMinute
  | numSecond
  | dotFrac
  | shortMonth
  | shortWeekday
  | tzColon
  | tzOff
deriving DecidableEq, Repr

/-- Scan a format string into items; unknown directives yield none, which
makes every parse against the format fail, as chrono Item::Error does. -/
def chronoItems : Str → Option (List FmtItem)
  | [] => some []
  | '%' :: 'Y' :: r => (fun l => FmtItem.numYear :: l) <$> chronoItems r
  | '%' :: 'm' :: r => (fun l => FmtItem.numMonth :: l) <$> chronoItems r
  | '%' :: 'd' :: r => (fun l => FmtItem.numDay :: l) <$> chronoItems r
  | '%' :: 'H' :: r => (fun l => FmtItem.numHour :: l) <$> chronoItems r
  | '%' :: 'M' :: r => (fun l => FmtItem.numMinute :: l) <$> chronoItems r
  | '%' :: 'S' :: r => (fun l => FmtItem.numSecond :: l) <$> chronoItems r
  | '%' :: 'b' :: r => (fun l => FmtItem.shortMonth :: l) <$> chronoItems r
  | '%' :: 'a' :: r => (fun l => FmtItem.shortWeekday :: l) <$> chronoItems r
  | '%' :: '.' :: 'f' :: r => (fun l => FmtItem.dotFrac :: l) <$> chronoItems r
  | '%' :: ':' :: 'z' :: r => (fun l => FmtItem.tzColon :: l) <$> chronoItems r
  | '%' :: 'z' :: r => (fun l => FmtItem.tzOff :: l) <$> chronoItems r
  | '%' :: _ => none
  | c :: r =>
    (fun l => (if isSpaceCh c then FmtItem.space else FmtItem.lit c) :: l) <$> chronoItems r

/-- Parsed fields, all initially absent (chrono Parsed). -/
structure PFields where
  year : Option Int := none
  month : Option Nat := none
  day : Option Nat := none
  hour : Option Nat := none
  minute : Option Nat := none
  second : Option Nat := none
  nano : Option Nat := none
  weekday : Option Nat := none
  offset : Option Int := none
deriving DecidableEq, Repr

/-- Set a field, failing on a conflicting double assignment. -/
def setF {α : Type} [DecidableEq α] (cur : Option α) (v : α) : Option (Option α) :=
  match cur with
  | none => some (some v)
  | some w => if w = v then some (some v) else none

/-- Greedy digit scan with accumulator, at most the given number of digits. -/
def scanDigits : Nat → Nat → Str → (Nat × Str)
  | 0, acc, s => (acc, s)
  | _ + 1, acc, [] => (acc, [])
  | n + 1, acc, c :: cs =>
    if isDigitCh c then scanDigits n (acc * 10 + digitVal c) cs else (acc, c :: cs)

/-- Read one to maxW digits (chrono scan number). -/
def scanNum (maxW : Nat) : Str → Option (Nat × Str)
  | c :: cs => if isDigitCh c then some (scanDigits (maxW - 1) (digitVal c) cs) else none
  | [] => none

/-- Read one or more digits with no width limit. -/
def scanNumAll (s : Str) : Option (Nat × Str) :=
  match takeRun isDigitCh s with
  | ([], _) => none
  | (ds, rest) => some (digitsVal ds, rest)

/-- Read a year: an explicit sign admits any number of digits, otherwise at
most four are read. -/
def scanYear : Str → Option (Int × Str)
  | [] => none
  | c :: r =>
    if c = '-' then (fun p => (-(p.1 : Int), p.2)) <$> scanNumAll r
    else if c = '+' then (fun p => ((p.1 : Int), p.2)) <$> scanNumAll r
    else (fun p => ((p.1 : Int), p.2)) <$> scanNum 4 (c :: r)

/-- Three-letter month abbreviation, case insensitive. -/
def monthFromAbbrev (a b c : Char) : Option Nat :=
  match toLowerCh a, toLowerCh b, toLowerCh c with
  | 'j', 'a', 'n' => some 1
  | 'f', 'e', 'b' => some 2
  | 'm', 'a', 'r' => some 3
  | 'a', 'p', 'r' => some 4
  | 'm', 'a', 'y' => some 5
  | 'j', 'u', 'n' => some 6
  | 'j', 'u', 'l' => some 7
  | 'a', 'u', 'g' => some 8
  | 's', 'e', 'p' => some 9
  | 'o', 'c', 't' => some 10
  | 'n', 'o', 'v' => some 11
  | 'd', 'e', 'c' => some 12
  | _, _, _ => none

/-- Read an abbreviated month name. -/
def scanShortMonth : Str → Option (Nat × Str)
  | a :: b :: c :: r => (fun m => (m, r)) <$> monthFromAbbrev a b c
  | _ => none

/-- Three-letter weekday abbreviation, case insensitive, Monday = 0. -/
def weekdayFromAbbrev (a b c : Char) : Option Nat :=
  match toLowerCh a, toLowerCh b, toLowerCh c with
  | 'm', 'o', 'n' => some 0
  | 't', 'u', 'e' => some 1
  | 'w', 'e', 'd' => some 2
  | 't', 'h', 'u' => some 3
  | 'f', 'r', 'i' => some 4
  | 's', 'a', 't' => some 5
  | 's', 'u', 'n' => some 6
  | _, _, _ => none

/-- Read an abbreviated weekday name. -/
def scanShortWeekday : Str → Option (Nat × Str)
  | a :: b :: c :: r => (fun w => (w, r)) <$> weekdayFromAbbrev a b c
  | _ => none

/-- Nanoseconds from the digits after the dot: the first nine digits padded
with zeros on the right. -/
def nanoOfDigits (ds : List Char) : Nat :=
  let d9 := ds.take 9
  digitsVal d9 * 10 ^ (9 - d9.length)

/-- Fractional seconds item: absent when the input does not start with a
dot, an error when a dot is not followed by digits. -/
def scanNanos (s : Str) : Option (Option Nat × Str) :=
  match s with
  | '.' :: r =>
    match takeRun isDigitCh r with
    | ([], _) => none
    | (ds, rest) => some (some (nanoOfDigits ds), rest)
  | _ => some (none, s)

/-- Timezone offset: sign, two hour digits, a colon (mandatory for the colon
form, optional otherwise), two minute digits; leading whitespace skipped. -/
def scanTzOffset (colonReq : Bool) (s : Str) : Option (Int × Str) :=
  match trimLeft s with
  | c :: r =>
    if c = '+' || c = '-' then
      match eatDigits 2 r with
      | some (hh, r1) =>
        let cont : Option (List Char × Str) :=
          match r1 with
          | ':' :: r2 => eatDigits 2 r2
          | _ => if colonReq then none else eatDigits 2 r1
        match cont with
        | some (mm, r4) =>
          let v : Int := (digitsVal hh : Int) * 3600 + (digitsVal mm : Int) * 60
          some (if c = '-' then -v else v, r4)
        | none => none
      | none => none
    else none
  | [] => none

/-- Run the item list over the input, threading the parsed fields; fails on
leftover input (chrono TOO_LONG). -/
def chronoRun : List FmtItem → Str → PFields → Option PFields
  | [], s, f => if s.isEmpty then some f else none
  | it :: items, s, f =>
    match it with
    | .lit c =>
      match s with
      | x :: r => if x = c then chronoRun items r f else none
      | [] => none
    | .space => chronoRun items (trimLeft s) f
    | .numYear =>
      match scanYear (trimLeft s) with
      | some (v, r) =>
        match setF f.year v with
        | some fv => chronoRun items r { f with year := fv }
        | none => none
      | none => none
    | .numMonth =>
      match scanNum 2 (trimLeft s) with
      | some (v, r) =>
        match setF f.month v with
        | some fv => chronoRun items r { f with month := fv }
        | none => none
      | none => none
    | .numDay =>
      match scanNum 2 (trimLeft s) with
      | some (v, r) =>
        match setF f.day v with
        | some fv => chronoRun items r { f with day := fv }
        | none => none
      | none => none
    | .numHour =>
      match scanNum 2 (trimLeft s) with
      | some (v, r) =>
        match setF f.hour v with
        | some fv => chronoRun items r { f with hour := fv }
        | none => none
      | none => none
    | .numMinute =>
      match scanNum 2 (trimLeft s) with
      | some (v, r) =>
        match setF f.minute v with
        | some fv => chronoRun items r { f with minute := fv }
        | none => none
      | none => none
    | .numSecond =>
      match scanNum 2 (trimLeft s) with
      | some (v, r) =>
        match setF f.second v with
        | some fv => chronoRun items r { f with second := fv }
        | none => none
      | none => none
    | .dotFrac =>
      match scanNanos s with
      | some (some n, r) =>
        match setF f.nano n with
        | some fv => chronoRun items r { f with nano := fv }
        | none => none
      | some (none, r) => chronoRun items r f
      | none => none
    | .shortMonth =>
      match scanShortMonth s with
      | some (v, r) =>
        match setF f.month v with
        | some fv => chronoRun items r { f with month := fv }
        | none => none
      | none => none
    | .shortWeekday =>
      match scanShortWeekday s with
      | some (v, r) =>
        match setF f.weekday v with
        | some fv => chronoRun items r { f with weekday := fv }
        | none => none
      | none => none
    | .tzColon =>
      match scanTzOffset true s with
      | some (v, r) =>
        match setF f.offset v with
        | some fv => chronoRun items r { f with offset := fv }
        | none => none
      | none => none
    | .tzOff =>
      match scanTzOffset false s with
      | some (v, r) =>
        match setF f.offset v with
        | some fv => chronoRun items r { f with offset := fv }
        | none => none
      | none => none

end Logpile

namespace Logpile

/-- Gregorian leap year. -/
def isLeapYear (y : Int) : Bool := (y % 4 = 0 && y % 100 ≠ 0) || y % 400 = 0

/-- Days in a month of the proleptic Gregorian calendar. -/
def daysInMonth (y : Int) : Nat → Nat
  | 1 => 31
  | 2 => if isLeapYear y then 29 else 28
  | 3 => 31
  | 4 => 30
  | 5 => 31
  | 6 => 30
  | 7 => 31
  | 8 => 31
  | 9 => 30
  | 10 => 31
  | 11 => 30
  | 12 => 31
  | _ => 0

/-- Days since 1970-01-01 of a civil date (standard days-from-civil
algorithm). -/
def daysFromCivil (y : Int) (m d : Nat) : Int :=
  let y2 : Int := if m ≤ 2 then y - 1 else y
  let era : Int := Int.fdiv y2 400
  let yoe : Int := y2 - era * 400
  let mp : Nat := (m + 9) % 12
  let doy : Nat := (153 * mp + 2) / 5 + d - 1
  let doe : Int := yoe * 365 + Int.fdiv yoe 4 - Int.fdiv yoe 100 + (doy : Int)
  era * 146097 + doe - 719468

/-- Weekday of a day count, Monday = 0 (1970-01-01 was a Thursday). -/
def weekdayFromDays (days : Int) : Nat := ((days + 3).emod 7).toNat

/-- Microseconds since the Unix epoch of a naive civil date-time
(sub-microsecond nanoseconds truncated, as timestamp_micros does). -/
def dateTimeMicros (y : Int) (m d h mi s nano : Nat) : Int :=
  daysFromCivil y m d * 86400000000 + ((h * 3600 + mi * 60 + s : Nat) : Int) * 1000000 +
    ((nano / 1000 : Nat) : Int)

/-- Assemble parsed fields into naive microseconds: year, month, day, hour
and minute are required, second and nanoseconds default to zero, the date and
time are validated (including the chrono year range), and a parsed weekday
must agree with the date. -/
def PFields.toNaiveMicros (f : PFields) : Option Int :=
  match f.year, f.month, f.day, f.hour, f.minute with
  | some y, some m, some d, some h, some mi =>
    let s := f.second.getD 0
    let n := f.nano.getD 0
    if ((-262144 ≤ y ∧ y ≤ 262143) ∧ (1 ≤ m ∧ m ≤ 12) ∧ (1 ≤ d ∧ d ≤ daysInMonth (y : Int) m)) ∧
        (h ≤ 23 ∧ mi ≤ 59 ∧ s ≤ 59) then
      match f.weekday with
      | some w =>
        if weekdayFromDays (daysFromCivil y m d) = w then
          some (dateTimeMicros y m d h mi s n)
        else none
      | none => some (dateTimeMicros y m d h mi s n)
    else none
  | _, _, _, _, _ => none

/-- DateTime::parse_from_str followed by with_timezone(&Utc): the format must
parse, produce a full date-time and an offset within a day, and the result is
the naive instant shifted to UTC. -/
def DateTimeParse (fmt text : Str) : Option Int :=
  match chronoItems fmt with
  | none => none
  | some items =>
    match chronoRun items text {} with
    | none => none
    | some f =>
      match f.toNaiveMicros, f.offset with
      | some nm, some off =>
        if -86400 < off ∧ off < 86400 then some (nm - off * 1000000) else none
      | _, _ => none

/-- NaiveDateTime::parse_from_str followed by from_naive_utc_and_offset with
the Utc offset: any parsed timezone offset is ignored. -/
def NaiveDateTimeParse (fmt text : Str) : Option Int :=
  match chronoItems fmt with
  | none => none
  | some items =>
    match chronoRun items text {} with
    | none => none
    | some f => f.toNaiveMicros

/-- DateTime::from_timestamp(secs, 0) in microseconds: in range exactly when
the instant fits the chrono date range (years -262144 to 262143). -/
def fromTimestampMicros (secs : Int) : Option Int :=
  if daysFromCivil (-262144) 1 1 * 86400 ≤ secs ∧
      secs ≤ daysFromCivil 262143 12 31 * 86400 + 86399 then
    some (secs * 1000000)
  else none

/-- Rust decimal formatting of a natural number, fuel-based so the kernel can
evaluate it. -/
def natToStringAux : Nat → Nat → Str → Str
  | 0, _, acc => acc
  | fuel + 1, n, acc =>
    let acc2 := digitChar (n % 10) :: acc
    let n2 := n / 10
    if n2 = 0 then acc2 else natToStringAux fuel n2 acc2

/-- Rust decimal formatting of a natural number. -/
def natToString (n : Nat) : Str := natToStringAux (n + 1) n []

/-- Two-digit zero-padded formatting, as chrono prints months and days. -/
def pad2 (n : Nat) : Str := if n < 10 then '0' :: natToString n else natToString n

/-- The current UTC time as far as parse_with_format consults it: the current
calendar year, month and day (Utc::now). -/
structure Now where
  year : Nat
  month : Nat
  day : Nat
deriving DecidableEq, Repr

/-- The current UTC date formatted %Y-%m-%d. -/
def fmtNowDate (nw : Now) : Str :=
  natToString nw.year ++ ('-' :: pad2 nw.month) ++ ('-' :: pad2 nw.day)

/-- COMMON_FORMATS from src/timestamp.rs, in source order. -/
def COMMON_FORMATS : List Str := [
  strL "%Y-%m-%dT%H:%M:%S%.fZ",
  strL "%Y-%m-%dT%H:%M:%S%.f%:z",
  strL "%Y-%m-%dT%H:%M:%S%:z",
  strL "%Y-%m-%dT%H:%M:%SZ",
  strL "%Y-%m-%dT%H:%M:%S%.f",
  strL "%Y-%m-%dT%H:%M:%S",
  strL "%m-%dT%H:%M:%S%.fZ",
  strL "%m-%dT%H:%M:%S%.f",
  strL "%m-%dT%H:%M:%SZ",
  strL "%m-%dT%H:%M:%S",
  strL "%H:%M:%S%.f",
  strL "%H:%M:%S",
  strL "%Y-%m-%d %H:%M:%S%.f",
  strL "%Y-%m-%d %H:%M:%S",
  strL "%Y/%m/%d %H:%M:%S",
  strL "%d/%m/%Y %H:%M:%S",
  strL "%m/%d/%Y %H:%M:%S",
  strL "%b %d %H:%M:%S",
  strL "[%d/%b/%Y:%H:%M:%S %z]",
  strL "%a, %d %b %Y %H:%M:%S"]

/-- The format-table part of TimestampParser::parse_with_format, reached when
the Unix-epoch shortcut does not fire: the timezone-aware parse, the naive
parse, and the three second-chance reparses that inject the current year (for
%b and %m- formats without %Y) or the current date (for %H: formats without
any date component). -/
def TimestampParser.formatSteps (nw : Now) (trimmed fmt : Str) : Option Int :=
  match DateTimeParse fmt trimmed with
    | some v => some v
    | none =>
      match NaiveDateTimeParse fmt trimmed with
      | some v => some v
      | none =>
        let step3 : Option Int :=
          if containsSub fmt (strL "%b") && !(containsSub fmt (strL "%Y")) then
            NaiveDateTimeParse (strL "%Y " ++ fmt) (natToString nw.year ++ ' ' :: trimmed)
          else none
        match step3 with
        | some v => some v
        | none =>
          let step4 : Option Int :=
            if startsWithL fmt (strL "%m-") && !(containsSub fmt (strL "%Y")) then
              NaiveDateTimeParse (strL "%Y-" ++ fmt) (natToString nw.year ++ '-' :: trimmed)
            else none
          match step4 with
          | some v => some v
          | none =>
            if startsWithL fmt (strL "%H:") && !(containsSub fmt (strL "%Y")) &&
                !(containsSub fmt (strL "%m")) && !(containsSub fmt (strL "%d")) then
              NaiveDateTimeParse (strL "%Y-%m-%d " ++ fmt) (fmtNowDate nw ++ ' ' :: trimmed)
            else none

/-- TimestampParser::parse_with_format: trim, return a ten-digit Unix epoch
immediately when the trimmed text is an integer strictly between
1 000 000 000 and 9 999 999 999, and otherwise fall through to the format
steps. -/
def TimestampParser.parse_with_format (nw : Now) (text fmt : Str) : Option Int :=
  let trimmed := trimBoth text
  let unixShortcut : Option (Option Int) :=
    match parseI64 trimmed with
    | some n =>
      if 1000000000 < n ∧ n < 9999999999 then some (fromTimestampMicros n) else none
    | none => none
  match unixShortcut with
  | some r => r
  | none => TimestampParser.formatSteps nw trimmed fmt

/-- The inner format loop of parse_line. -/
def TimestampParser.tryFormats (nw : Now) (cand : Str) : List Str → Option Int
  | [] => none
  | f :: fs =>
    match TimestampParser.parse_with_format nw cand f with
    | some t => some t
    | none => TimestampParser.tryFormats nw cand fs

/-- The outer candidate loop of parse_line. -/
def TimestampParser.tryCandidates (nw : Now) : List Str → Option Int
  | [] => none
  | c :: cs =>
    match TimestampParser.tryFormats nw c COMMON_FORMATS with
    | some t => some t
    | none => TimestampParser.tryCandidates nw cs

/-- TimestampParser::parse_line: an optional custom format is attempted on
the whole line first and wins on success; otherwise (including when the
custom format fails) candidates are extracted and tried against the format
table.  The candidate extraction can panic (Except.error) on the byte-slice
fallback. -/
def TimestampParser.parse_line (custom : Option Str) (nw : Now) (line : Str) :
    Except Unit (Option Int) :=
  let auto : Except Unit (Option Int) :=
    match TimestampParser.extract_timestamp_candidates line with
    | .error e => .error e
    | .ok cands => .ok (TimestampParser.tryCandidates nw cands)
  match custom with
  | some fmt =>
    match TimestampParser.parse_with_format nw line fmt with
    | some ts => .ok (some ts)
    | none => auto
  | none => auto

end Logpile

namespace Logpile

/-- Claim C1 (corrected), counterexample: with the custom format
%Y/%m/%d %H:%M:%S configured, the line 2025-10-03T14:30:45 boom fails the
whole-line custom parse, yet parse_line still returns the ISO instant found
by the regex auto-detection: a failing custom format falls through to
auto-detection instead of returning none. -/
theorem claim_C1_counterexample :
    TimestampParser.parse_with_format ⟨2025, 10, 3⟩ (strL "2025-10-03T14:30:45 boom")
      (strL "%Y/%m/%d %H:%M:%S") = none ∧
    TimestampParser.parse_line (some (strL "%Y/%m/%d %H:%M:%S")) ⟨2025, 10, 3⟩
      (strL "2025-10-03T14:30:45 boom") = .ok (some 1759501845000000) :=
  ⟨rfl, rfl⟩

/-- Claim C1 (corrected, amended): a supplied custom format is attempted
first on the entire line (timezone-aware, then naive, then the second-chance
reparses) and on success its instant is returned immediately; on failure
parse_line falls through and behaves exactly as auto-detection with no custom
format configured. -/
theorem claim_C1_amended :
    ∀ (fmt line : Str) (nw : Now),
      (∀ t, TimestampParser.parse_with_format nw line fmt = some t →
        TimestampParser.parse_line (some fmt) nw line = .ok (some t)) ∧
      (TimestampParser.parse_with_format nw line fmt = none →
        TimestampParser.parse_line (some fmt) nw line =
          TimestampParser.parse_line none nw line) := by
  intro fmt line nw
  constructor
  · intro t ht
    unfold TimestampParser.parse_line
    simp only [ht]
  · intro hn
    unfold TimestampParser.parse_line
    simp only [hn]

/-- Claim C1 witness, instantiating the amended theorem on both sides: the
custom format succeeds on a matching line and is returned, and a failing
custom format yields exactly the auto-detection result. -/
theorem claim_C1_witness :
    TimestampParser.parse_line (some (strL "%Y/%m/%d %H:%M:%S")) ⟨2025, 10, 3⟩
      (strL "2025/10/03 14:30:45") = .ok (some 1759501845000000) ∧
    TimestampParser.parse_line (some (strL "%d.%m.%Y")) ⟨2025, 10, 3⟩
      (strL "2025-10-03T14:30:45 boom") =
      TimestampParser.parse_line none ⟨2025, 10, 3⟩ (strL "2025-10-03T14:30:45 boom") := by
  constructor
  · exact (claim_C1_amended (strL "%Y/%m/%d %H:%M:%S") (strL "2025/10/03 14:30:45")
      ⟨2025, 10, 3⟩).1 1759501845000000 rfl
  · exact (claim_C1_amended (strL "%d.%m.%Y") (strL "2025-10-03T14:30:45 boom")
      ⟨2025, 10, 3⟩).2 rfl

/-- Claim C5 (corrected), counterexample: both boundary values are excluded
by the code, not only the upper one.  The line 1000000000 INFO done yields
the sole candidate 1000000000, whose trimmed text parses as the integer
1000000000, inside the half-open range claimed; yet parse_line returns no
instant, and likewise for 9999999999, which the claim also places inside the
range. -/
theorem claim_C5_counterexample :
    TimestampParser.extract_timestamp_candidates (strL "1000000000 INFO done") =
      .ok [strL "1000000000"] ∧
    parseI64 (trimBoth (strL "1000000000")) = some 1000000000 ∧
    (1000000000 ≤ (1000000000 : Int) ∧ (1000000000 : Int) < 10000000000) ∧
    TimestampParser.parse_line none ⟨2025, 10, 3⟩ (strL "1000000000 INFO done") =
      .ok none ∧
    (1000000000 ≤ (9999999999 : Int) ∧ (9999999999 : Int) < 10000000000) ∧
    TimestampParser.parse_line none ⟨2025, 10, 3⟩ (strL "9999999999 INFO done") =
      .ok none :=
  ⟨rfl, rfl, by norm_num, rfl, by norm_num, rfl⟩

/-- Claim C5 (corrected, amended): within parse_with_format, a candidate
whose trimmed text parses as an integer n is interpreted directly as Unix
epoch seconds, bypassing the format table, exactly when n lies in the OPEN
range (1_000_000_000, 9_999_999_999): in range the result is the epoch
instant n seconds regardless of the format, and out of range (both bounds
excluded by strict comparisons) the parse falls through to the format steps,
whose outcome does not consult n.  The line 1727962496 INFO done yields the
epoch instant 1727962496. -/
theorem claim_C5_amended :
    (∀ (nw : Now) (text fmt : Str) (n : Int),
      parseI64 (trimBoth text) = some n →
      TimestampParser.parse_with_format nw text fmt =
        (if 1000000000 < n ∧ n < 9999999999 then some (n * 1000000)
         else TimestampParser.formatSteps nw (trimBoth text) fmt)) ∧
    TimestampParser.parse_line none ⟨2025, 10, 3⟩ (strL "1727962496 INFO done") =
      .ok (some 1727962496000000) := by
  constructor
  · intro nw text fmt n hp
    unfold TimestampParser.parse_with_format
    simp only [hp]
    by_cases h : 1000000000 < n ∧ n < 9999999999
    · have hrange : fromTimestampMicros n = some (n * 1000000) := by
        unfold fromTimestampMicros
        rw [if_pos]
        constructor
        · have hlo : daysFromCivil (-262144) 1 1 * 86400 = -8334632851200 := by decide
          omega
        · have hhi : daysFromCivil 262143 12 31 * 86400 + 86399 = 8210298412799 := by decide
          omega
      rw [if_pos h, if_pos h, hrange]
    · rw [if_neg h, if_neg h]
  · rfl

/-- Claim C5 witness, instantiating the amended theorem at the in-range
candidate 1727962496 with the first table format. -/
theorem claim_C5_witness :
    TimestampParser.parse_with_format ⟨2025, 10, 3⟩ (strL "1727962496")
      (strL "%Y-%m-%dT%H:%M:%S%.fZ") = some 1727962496000000 := by
  have h := claim_C5_amended.1 ⟨2025, 10, 3⟩ (strL "1727962496")
    (strL "%Y-%m-%dT%H:%M:%S%.fZ") 1727962496 rfl
  rw [h, if_pos (show (1000000000 : Int) < 1727962496 ∧ (1727962496 : Int) < 9999999999 by
    norm_num)]
  norm_num

/-- Claim C6 (code bug): the fallback candidate slices the first
min(len, 50) BYTES of the line, not characters.  On a line of 49 ASCII
letters followed by one two-byte character (51 bytes, no recognizer match)
the cut at byte 50 is not a character boundary, so the Rust code panics
inside parse_line instead of returning None as the specification requires;
the embedding returns the panic value. -/
theorem claim_C6 :
    utf8Len (List.replicate 49 'a' ++ ['é']) = 51 ∧
    byteTake (List.replicate 49 'a' ++ ['é']) 50 = none ∧
    TimestampParser.parse_line none ⟨2025, 10, 3⟩ (List.replicate 49 'a' ++ ['é']) =
      .error () :=
  ⟨rfl, rfl, rfl⟩

end Logpile

namespace Logpile

theorem isDigitCh_digitChar {k : Nat} (h : k ≤ 9) : isDigitCh (digitChar k) = true := by
  interval_cases k <;> decide

theorem isSpaceCh_digitChar {k : Nat} (h : k ≤ 9) : isSpaceCh (digitChar k) = false := by
  interval_cases k <;> decide

theorem digitVal_digitChar {k : Nat} (h : k ≤ 9) : digitVal (digitChar k) = k := by
  interval_cases k <;> decide

theorem digitChar_ne_dash {k : Nat} (h : k ≤ 9) : ¬ digitChar k = '-' := by
  interval_cases k <;> decide

theorem digitChar_ne_plus {k : Nat} (h : k ≤ 9) : ¬ digitChar k = '+' := by
  interval_cases k <;> decide

theorem natToStringAux_succ (fuel n : Nat) (acc : Str) (h : 0 < fuel) :
    natToStringAux fuel n acc =
      if n / 10 = 0 then digitChar (n % 10) :: acc
      else natToStringAux (fuel - 1) (n / 10) (digitChar (n % 10) :: acc) := by
  obtain ⟨f, rfl⟩ : ∃ f, fuel = f + 1 := ⟨fuel - 1, by omega⟩
  simp [natToStringAux]

theorem natToString_one (n : Nat) (h : n ≤ 9) : natToString n = [digitChar n] := by
  unfold natToString
  rw [natToStringAux_succ _ _ _ (by omega)]
  rw [if_pos (by omega)]
  rw [show n % 10 = n by omega]

theorem natToString_two (n : Nat) (h1 : 10 ≤ n) (h2 : n ≤ 99) :
    natToString n = [digitChar (n / 10), digitChar (n % 10)] := by
  unfold natToString
  rw [natToStringAux_succ _ _ _ (by omega)]
  rw [if_neg (by omega)]
  rw [natToStringAux_succ _ _ _ (by omega)]
  rw [if_pos (by omega)]
  rw [show n / 10 % 10 = n / 10 by omega]

theorem natToString_four (Y : Nat) (h1 : 1000 ≤ Y) (h2 : Y ≤ 9999) :
    natToString Y = [digitChar (Y / 1000), digitChar (Y / 100 % 10),
      digitChar (Y / 10 % 10), digitChar (Y % 10)] := by
  unfold natToString
  rw [natToStringAux_succ _ _ _ (by omega)]
  rw [if_neg (by omega)]
  rw [natToStringAux_succ _ _ _ (by omega)]
  rw [if_neg (by omega)]
  rw [natToStringAux_succ _ _ _ (by omega)]
  rw [if_neg (by omega)]
  rw [natToStringAux_succ _ _ _ (by omega)]
  rw [if_pos (by omega)]
  rw [show Y / 10 / 10 = Y / 100 by omega]
  rw [show Y / 100 / 10 = Y / 1000 by omega]
  rw [show Y / 1000 % 10 = Y / 1000 by omega]

theorem pad2_digits (n : Nat) (h : n ≤ 99) :
    ∃ a b, a ≤ 9 ∧ b ≤ 9 ∧ a * 10 + b = n ∧ pad2 n = [digitChar a, digitChar b] := by
  unfold pad2
  by_cases hn : n < 10
  · rw [if_pos hn, natToString_one n (by omega)]
    exact ⟨0, n, by omega, by omega, by omega, rfl⟩
  · rw [if_neg hn, natToString_two n (by omega) h]
    exact ⟨n / 10, n % 10, by omega, by omega, by omega, rfl⟩

end Logpile

namespace Logpile

theorem scanNum4_digits (k3 k2 k1 k0 : Nat) (h3 : k3 ≤ 9) (h2 : k2 ≤ 9) (h1 : k1 ≤ 9)
    (h0 : k0 ≤ 9) (rest : Str) :
    scanNum 4 (digitChar k3 :: digitChar k2 :: digitChar k1 :: digitChar k0 :: rest) =
      some (((k3 * 10 + k2) * 10 + k1) * 10 + k0, rest) := by
  simp [scanNum, scanDigits, isDigitCh_digitChar h3, isDigitCh_digitChar h2,
    isDigitCh_digitChar h1, isDigitCh_digitChar h0, digitVal_digitChar h3,
    digitVal_digitChar h2, digitVal_digitChar h1, digitVal_digitChar h0]

theorem scanNum2_digits (k1 k0 : Nat) (h1 : k1 ≤ 9) (h0 : k0 ≤ 9) (rest : Str) :
    scanNum 2 (digitChar k1 :: digitChar k0 :: rest) = some (k1 * 10 + k0, rest) := by
  simp [scanNum, scanDigits, isDigitCh_digitChar h1, isDigitCh_digitChar h0,
    digitVal_digitChar h1, digitVal_digitChar h0]

theorem scanYear_natToString (Y : Nat) (hy1 : 1000 ≤ Y) (hy2 : Y ≤ 9999) (rest : Str) :
    scanYear (natToString Y ++ rest) = some ((Y : Int), rest) := by
  rw [natToString_four Y hy1 hy2]
  simp only [List.cons_append, List.nil_append, scanYear]
  rw [if_neg (digitChar_ne_dash (by omega))]
  rw [if_neg (digitChar_ne_plus (by omega))]
  rw [scanNum4_digits _ _ _ _ (by omega) (by omega) (by omega) (by omega)]
  simp only [Option.map_some]
  have hv : ((Y / 1000 * 10 + Y / 100 % 10) * 10 + Y / 10 % 10) * 10 + Y % 10 = Y := by
    omega
  rw [hv]

theorem trimLeft_natToString (Y : Nat) (hy1 : 1000 ≤ Y) (hy2 : Y ≤ 9999) (rest : Str) :
    trimLeft (natToString Y ++ rest) = natToString Y ++ rest := by
  rw [natToString_four Y hy1 hy2]
  simp [trimLeft, isSpaceCh_digitChar (show Y / 1000 ≤ 9 by omega)]

theorem chronoRun_year_cons (Y : Nat) (hy1 : 1000 ≤ Y) (hy2 : Y ≤ 9999)
    (items : List FmtItem) (rest : Str) (f : PFields) (hy : f.year = none) :
    chronoRun (FmtItem.numYear :: items) (natToString Y ++ rest) f =
      chronoRun items rest { f with year := some (Y : Int) } := by
  simp only [chronoRun]
  rw [trimLeft_natToString Y hy1 hy2, scanYear_natToString Y hy1 hy2]
  simp [setF, hy]

theorem chronoRun_month_pad2 (M : Nat) (hM : M ≤ 99) (items : List FmtItem) (rest : Str)
    (f : PFields) (hm : f.month = none) :
    chronoRun (FmtItem.numMonth :: items) (pad2 M ++ rest) f =
      chronoRun items rest { f with month := some M } := by
  obtain ⟨a, b, ha, hb, hval, hpad⟩ := pad2_digits M hM
  rw [hpad]
  simp only [chronoRun, List.cons_append, List.nil_append]
  rw [show trimLeft (digitChar a :: digitChar b :: rest) =
      digitChar a :: digitChar b :: rest by
    simp [trimLeft, isSpaceCh_digitChar ha]]
  rw [scanNum2_digits a b ha hb]
  rw [hval]
  simp [setF, hm]

theorem chronoRun_day_pad2 (D : Nat) (hD : D ≤ 99) (items : List FmtItem) (rest : Str)
    (f : PFields) (hd : f.day = none) :
    chronoRun (FmtItem.numDay :: items) (pad2 D ++ rest) f =
      chronoRun items rest { f with day := some D } := by
  obtain ⟨a, b, ha, hb, hval, hpad⟩ := pad2_digits D hD
  rw [hpad]
  simp only [chronoRun, List.cons_append, List.nil_append]
  rw [show trimLeft (digitChar a :: digitChar b :: rest) =
      digitChar a :: digitChar b :: rest by
    simp [trimLeft, isSpaceCh_digitChar ha]]
  rw [scanNum2_digits a b ha hb]
  rw [hval]
  simp [setF, hd]

end Logpile

namespace Logpile

/-- The naive parse outcome at the item level, as NaiveDateTimeParse is stuck
once the format has been scanned. -/
def ndtOutcome (items : List FmtItem) (text : Str) : Option Int :=
  match chronoRun items text {} with
  | none => none
  | some f => f.toNaiveMicros

theorem chronoRun_lit_cons (c : Char) (items : List FmtItem) (s : Str) (f : PFields) :
    chronoRun (FmtItem.lit c :: items) (c :: s) f = chronoRun items s f := by
  simp [chronoRun]

theorem c9_minj_none (Y : Nat) (h1 : 1000 ≤ Y) (h2 : Y ≤ 9999) (its : List FmtItem) :
    ndtOutcome (FmtItem.numYear :: FmtItem.lit '-' :: FmtItem.numMonth :: its)
      (natToString Y ++ ('-' :: strL "Oct 03 14:30:45")) = none := by
  unfold ndtOutcome
  rw [chronoRun_year_cons Y h1 h2 _ _ _ rfl, chronoRun_lit_cons]
  rfl

theorem c9_dateinj_none (Y M D : Nat) (h1 : 1000 ≤ Y) (h2 : Y ≤ 9999) (hM : M ≤ 99)
    (hD : D ≤ 99) (its : List FmtItem) :
    ndtOutcome (FmtItem.numYear :: FmtItem.lit '-' :: FmtItem.numMonth :: FmtItem.lit '-' ::
        FmtItem.numDay :: FmtItem.space :: FmtItem.numHour :: its)
      (((natToString Y ++ ('-' :: pad2 M)) ++ ('-' :: pad2 D)) ++
        (' ' :: strL "Oct 03 14:30:45")) = none := by
  unfold ndtOutcome
  simp only [List.append_assoc, List.cons_append]
  rw [chronoRun_year_cons Y h1 h2 _ _ _ rfl, chronoRun_lit_cons,
    chronoRun_month_pad2 M hM _ _ _ rfl, chronoRun_lit_cons,
    chronoRun_day_pad2 D hD _ _ _ rfl]
  rfl

theorem toNaive_syslog (Y : Nat) (h1 : 1000 ≤ Y) (h2 : Y ≤ 9999) :
    PFields.toNaiveMicros
        ⟨some (Y : Int), some 10, some 3, some 14, some 30, some 45, none, none, none⟩ =
      some (dateTimeMicros (Y : Int) 10 3 14 30 45 0) := by
  simp only [PFields.toNaiveMicros]
  rw [if_pos]
  · rfl
  · refine ⟨⟨⟨by omega, by omega⟩, by omega, by omega, ?_⟩, by omega, by omega, by simp⟩
    rw [show daysInMonth (Y : Int) 10 = 31 from rfl]
    omega

theorem c9_syslog_some (Y : Nat) (h1 : 1000 ≤ Y) (h2 : Y ≤ 9999) :
    ndtOutcome [FmtItem.numYear, FmtItem.space, FmtItem.shortMonth, FmtItem.space,
        FmtItem.numDay, FmtItem.space, FmtItem.numHour, FmtItem.lit ':', FmtItem.numMinute,
        FmtItem.lit ':', FmtItem.numSecond]
      (natToString Y ++ (' ' :: strL "Oct 03 14:30:45")) =
      some (dateTimeMicros (Y : Int) 10 3 14 30 45 0) := by
  unfold ndtOutcome
  rw [chronoRun_year_cons Y h1 h2 _ _ _ rfl]
  rw [show chronoRun [FmtItem.space, FmtItem.shortMonth, FmtItem.space, FmtItem.numDay,
      FmtItem.space, FmtItem.numHour, FmtItem.lit ':', FmtItem.numMinute, FmtItem.lit ':',
      FmtItem.numSecond] (' ' :: strL "Oct 03 14:30:45")
      { ({} : PFields) with year := some (Y : Int) } =
      some ⟨some (Y : Int), some 10, some 3, some 14, some 30, some 45, none, none, none⟩
    from rfl]
  exact toNaive_syslog Y h1 h2

end Logpile

namespace Logpile

theorem c9_fmt7 (Y M D : Nat) (h1 : 1000 ≤ Y) (h2 : Y ≤ 9999) :
    TimestampParser.parse_with_format ⟨Y, M, D⟩ (strL "Oct 03 14:30:45")
      (strL "%m-%dT%H:%M:%S%.fZ") = none := by
  have h := c9_minj_none Y h1 h2 [FmtItem.lit '-', FmtItem.numDay, FmtItem.lit 'T',
    FmtItem.numHour, FmtItem.lit ':', FmtItem.numMinute, FmtItem.lit ':', FmtItem.numSecond,
    FmtItem.dotFrac, FmtItem.lit 'Z']
  show (match ndtOutcome [FmtItem.numYear, FmtItem.lit '-', FmtItem.numMonth, FmtItem.lit '-',
      FmtItem.numDay, FmtItem.lit 'T', FmtItem.numHour, FmtItem.lit ':', FmtItem.numMinute,
      FmtItem.lit ':', FmtItem.numSecond, FmtItem.dotFrac, FmtItem.lit 'Z']
      (natToString Y ++ ('-' :: strL "Oct 03 14:30:45")) with
    | some v => some v
    | none => (none : Option Int)) = none
  rw [h]

theorem c9_fmt8 (Y M D : Nat) (h1 : 1000 ≤ Y) (h2 : Y ≤ 9999) :
    TimestampParser.parse_with_format ⟨Y, M, D⟩ (strL "Oct 03 14:30:45")
      (strL "%m-%dT%H:%M:%S%.f") = none := by
  have h := c9_minj_none Y h1 h2 [FmtItem.lit '-', FmtItem.numDay, FmtItem.lit 'T',
    FmtItem.numHour, FmtItem.lit ':', FmtItem.numMinute, FmtItem.lit ':', FmtItem.numSecond,
    FmtItem.dotFrac]
  show (match ndtOutcome [FmtItem.numYear, FmtItem.lit '-', FmtItem.numMonth, FmtItem.lit '-',
      FmtItem.numDay, FmtItem.lit 'T', FmtItem.numHour, FmtItem.lit ':', FmtItem.numMinute,
      FmtItem.lit ':', FmtItem.numSecond, FmtItem.dotFrac]
      (natToString Y ++ ('-' :: strL "Oct 03 14:30:45")) with
    | some v => some v
    | none => (none : Option Int)) = none
  rw [h]

theorem c9_fmt9 (Y M D : Nat) (h1 : 1000 ≤ Y) (h2 : Y ≤ 9999) :
    TimestampParser.parse_with_format ⟨Y, M, D⟩ (strL "Oct 03 14:30:45")
      (strL "%m-%dT%H:%M:%SZ") = none := by
  have h := c9_minj_none Y h1 h2 [FmtItem.lit '-', FmtItem.numDay, FmtItem.lit 'T',
    FmtItem.numHour, FmtItem.lit ':', FmtItem.numMinute, FmtItem.lit ':', FmtItem.numSecond,
    FmtItem.lit 'Z']
  show (match ndtOutcome [FmtItem.numYear, FmtItem.lit '-', FmtItem.numMonth, FmtItem.lit '-',
      FmtItem.numDay, FmtItem.lit 'T', FmtItem.numHour, FmtItem.lit ':', FmtItem.numMinute,
      FmtItem.lit ':', FmtItem.numSecond, FmtItem.lit 'Z']
      (natToString Y ++ ('-' :: strL "Oct 03 14:30:45")) with
    | some v => some v
    | none => (none : Option Int)) = none
  rw [h]

theorem c9_fmt10 (Y M D : Nat) (h1 : 1000 ≤ Y) (h2 : Y ≤ 9999) :
    TimestampParser.parse_with_format ⟨Y, M, D⟩ (strL "Oct 03 14:30:45")
      (strL "%m-%dT%H:%M:%S") = none := by
  have h := c9_minj_none Y h1 h2 [FmtItem.lit '-', FmtItem.numDay, FmtItem.lit 'T',
    FmtItem.numHour, FmtItem.lit ':', FmtItem.numMinute, FmtItem.lit ':', FmtItem.numSecond]
  show (match ndtOutcome [FmtItem.numYear, FmtItem.lit '-', FmtItem.numMonth, FmtItem.lit '-',
      FmtItem.numDay, FmtItem.lit 'T', FmtItem.numHour, FmtItem.lit ':', FmtItem.numMinute,
      FmtItem.lit ':', FmtItem.numSecond]
      (natToString Y ++ ('-' :: strL "Oct 03 14:30:45")) with
    | some v => some v
    | none => (none : Option Int)) = none
  rw [h]

theorem c9_fmt11 (Y M D : Nat) (h1 : 1000 ≤ Y) (h2 : Y ≤ 9999) (hM : M ≤ 99) (hD : D ≤ 99) :
    TimestampParser.parse_with_format ⟨Y, M, D⟩ (strL "Oct 03 14:30:45")
      (strL "%H:%M:%S%.f") = none := by
  exact c9_dateinj_none Y M D h1 h2 hM hD [FmtItem.lit ':', FmtItem.numMinute,
    FmtItem.lit ':', FmtItem.numSecond, FmtItem.dotFrac]

theorem c9_fmt12 (Y M D : Nat) (h1 : 1000 ≤ Y) (h2 : Y ≤ 9999) (hM : M ≤ 99) (hD : D ≤ 99) :
    TimestampParser.parse_with_format ⟨Y, M, D⟩ (strL "Oct 03 14:30:45")
      (strL "%H:%M:%S") = none := by
  exact c9_dateinj_none Y M D h1 h2 hM hD [FmtItem.lit ':', FmtItem.numMinute,
    FmtItem.lit ':', FmtItem.numSecond]

theorem c9_sysFormat (Y M D : Nat) (h1 : 1000 ≤ Y) (h2 : Y ≤ 9999) :
    TimestampParser.parse_with_format ⟨Y, M, D⟩ (strL "Oct 03 14:30:45")
      (strL "%b %d %H:%M:%S") = some (dateTimeMicros (Y : Int) 10 3 14 30 45 0) := by
  have h := c9_syslog_some Y h1 h2
  show (match ndtOutcome [FmtItem.numYear, FmtItem.space, FmtItem.shortMonth, FmtItem.space,
      FmtItem.numDay, FmtItem.space, FmtItem.numHour, FmtItem.lit ':', FmtItem.numMinute,
      FmtItem.lit ':', FmtItem.numSecond]
      (natToString Y ++ (' ' :: strL "Oct 03 14:30:45")) with
    | some v => some v
    | none => (none : Option Int)) = some (dateTimeMicros (Y : Int) 10 3 14 30 45 0)
  rw [h]

theorem c9_yearFormats (Y M D : Nat) :
    TimestampParser.parse_with_format ⟨Y, M, D⟩ (strL "Oct 03 14:30:45")
      (strL "%Y-%m-%dT%H:%M:%S%.fZ") = none ∧
    TimestampParser.parse_with_format ⟨Y, M, D⟩ (strL "Oct 03 14:30:45")
      (strL "%Y-%m-%dT%H:%M:%S%.f%:z") = none ∧
    TimestampParser.parse_with_format ⟨Y, M, D⟩ (strL "Oct 03 14:30:45")
      (strL "%Y-%m-%dT%H:%M:%S%:z") = none ∧
    TimestampParser.parse_with_format ⟨Y, M, D⟩ (strL "Oct 03 14:30:45")
      (strL "%Y-%m-%dT%H:%M:%SZ") = none ∧
    TimestampParser.parse_with_format ⟨Y, M, D⟩ (strL "Oct 03 14:30:45")
      (strL "%Y-%m-%dT%H:%M:%S%.f") = none ∧
    TimestampParser.parse_with_format ⟨Y, M, D⟩ (strL "Oct 03 14:30:45")
      (strL "%Y-%m-%dT%H:%M:%S") = none ∧
    TimestampParser.parse_with_format ⟨Y, M, D⟩ (strL "Oct 03 14:30:45")
      (strL "%Y-%m-%d %H:%M:%S%.f") = none ∧
    TimestampParser.parse_with_format ⟨Y, M, D⟩ (strL "Oct 03 14:30:45")
      (strL "%Y-%m-%d %H:%M:%S") = none ∧
    TimestampParser.parse_with_format ⟨Y, M, D⟩ (strL "Oct 03 14:30:45")
      (strL "%Y/%m/%d %H:%M:%S") = none ∧
    TimestampParser.parse_with_format ⟨Y, M, D⟩ (strL "Oct 03 14:30:45")
      (strL "%d/%m/%Y %H:%M:%S") = none ∧
    TimestampParser.parse_with_format ⟨Y, M, D⟩ (strL "Oct 03 14:30:45")
      (strL "%m/%d/%Y %H:%M:%S") = none :=
  ⟨rfl, rfl, rfl, rfl, rfl, rfl, rfl, rfl, rfl, rfl, rfl⟩

/-- Claim C9 (confirmed): with no custom format, the line
Oct 03 14:30:45 app: msg parses to month 10, day 3, 14:30:45, with the year
taken from the current UTC date: the syslog candidate is extracted, the plain
table formats fail on it, and the %b format succeeds after the current year is
prefixed and the candidate reparsed with the year-qualified format. -/
theorem claim_C9 (Y M D : Nat) (h1 : 1000 ≤ Y) (h2 : Y ≤ 9999) (hM : M ≤ 99) (hD : D ≤ 99) :
    TimestampParser.parse_line none ⟨Y, M, D⟩ (strL "Oct 03 14:30:45 app: msg") =
      .ok (some (dateTimeMicros (Y : Int) 10 3 14 30 45 0)) := by
  have htf : TimestampParser.tryFormats ⟨Y, M, D⟩ (strL "Oct 03 14:30:45") COMMON_FORMATS =
      some (dateTimeMicros (Y : Int) 10 3 14 30 45 0) := by
    simp only [COMMON_FORMATS, TimestampParser.tryFormats, c9_yearFormats Y M D,
      c9_fmt7 Y M D h1 h2, c9_fmt8 Y M D h1 h2, c9_fmt9 Y M D h1 h2, c9_fmt10 Y M D h1 h2,
      c9_fmt11 Y M D h1 h2 hM hD, c9_fmt12 Y M D h1 h2 hM hD, c9_sysFormat Y M D h1 h2]
  show Except.ok (match TimestampParser.tryFormats ⟨Y, M, D⟩ (strL "Oct 03 14:30:45")
      COMMON_FORMATS with
    | some t => some t
    | none => TimestampParser.tryCandidates ⟨Y, M, D⟩ [strL "14:30:45"]) =
    Except.ok (some (dateTimeMicros (Y : Int) 10 3 14 30 45 0))
  rw [htf]

/-- Claim C9 witness: at the current date 2025-10-03 the line parses to the
instant 2025-10-03T14:30:45Z, 1759501845000000 microseconds since the epoch. -/
theorem claim_C9_witness :
    TimestampParser.parse_line none ⟨2025, 10, 3⟩ (strL "Oct 03 14:30:45 app: msg") =
      .ok (some (dateTimeMicros ((2025 : Nat) : Int) 10 3 14 30 45 0)) ∧
    dateTimeMicros ((2025 : Nat) : Int) 10 3 14 30 45 0 = 1759501845000000 :=
  ⟨claim_C9 2025 10 3 (by norm_num) (by norm_num) (by norm_num) (by norm_num), by decide⟩

end Logpile
